import Mathlib

/-!
Verification of the itinerary core of a trip-planning backend.

The development shallowly embeds the backend's routers operating on a single
trip's rows (stops, activities, photos, movements, versions).  Database tables
are lists of records; `SELECT ... ORDER BY sort_index` is embedded as
stable sorting; SQL `coalesce(max(..), d)` as `List.maximum` with a default;
dates are day counts (`Int`); money (stored as two-decimal numerics) and
coordinates are embedded as integers scaled from their decimal
representation — the code only orders, adds, and multiplies them; row
identities (UUIDs / autogenerated keys) are `Nat` parameters supplied by the
caller, standing for the fresh identifiers the database or `uuid4` produces.
HTTP failures are values of `Err`: raising an exception before any write is
embedded as returning `Except.error` (leaving the state unchanged).
-/

/-- HTTP-level failures of the itinerary core: 404 not-found, 400 invalid
index on reorder, 422 empty generation candidate. -/
inductive Err where
  | notFound
  | invalidIndex
  | noStops
  deriving DecidableEq, Repr

deriving instance DecidableEq for Except

/-- Row of the trips table (scalar columns used by the itinerary core). -/
structure Trip where
  id : Nat
  user_id : Nat
  name : String
  country_code : String
  start_date : Int
  end_date : Int
  status : String
  notes : String
  currency : String
  deriving DecidableEq, Repr, Inhabited

/-- Row of the trip_stops table. -/
structure TripStop where
  id : Nat
  sort_index : Nat
  name : String
  lng : Int
  lat : Int
  notes : String
  nights : Int
  price_per_night : Option Int
  deriving DecidableEq, Repr, Inhabited

/-- Row of the activities table. -/
structure Activity where
  id : Nat
  trip_stop_id : Nat
  sort_index : Nat
  title : String
  date : Option Int
  start_time : Option Int
  duration_minutes : Option Int
  lng : Option Int
  lat : Option Int
  address : String
  notes : String
  category : String
  opening_hours : String
  price : Option Int
  tips : String
  website_url : String
  phone : String
  rating : Option Int
  guide_info : String
  transport_info : String
  opentripmap_xid : String
  deriving DecidableEq, Repr, Inhabited

/-- Row of the activity_photos table. -/
structure ActivityPhoto where
  id : Nat
  activity_id : Nat
  url : String
  thumbnail_url : String
  attribution : String
  photographer_name : String
  photographer_url : String
  source : String
  width : Option Int
  height : Option Int
  sort_index : Nat
  deriving DecidableEq, Repr, Inhabited

/-- Row of the movements table. -/
structure Movement where
  id : Nat
  from_stop_id : Nat
  to_stop_id : Nat
  type : String
  duration_minutes : Option Int
  departure_time : Option Int
  arrival_time : Option Int
  carrier : String
  booking_ref : String
  notes : String
  price : Option Int
  deriving DecidableEq, Repr, Inhabited

/-- Photo record inside a version snapshot document. -/
structure PhotoSnap where
  url : String
  thumbnail_url : String
  attribution : String
  photographer_name : String
  photographer_url : String
  source : String
  width : Option Int
  height : Option Int
  sort_index : Nat
  deriving DecidableEq, Repr, Inhabited

/-- Activity record inside a version snapshot document. -/
structure ActivitySnap where
  sort_index : Nat
  title : String
  date : Option Int
  start_time : Option Int
  duration_minutes : Option Int
  lng : Option Int
  lat : Option Int
  address : String
  notes : String
  category : String
  opening_hours : String
  price : Option Int
  tips : String
  website_url : String
  phone : String
  rating : Option Int
  guide_info : String
  transport_info : String
  opentripmap_xid : String
  photos : List PhotoSnap
  deriving DecidableEq, Repr, Inhabited

/-- Stop record inside a version snapshot document. -/
structure StopSnap where
  sort_index : Nat
  name : String
  lng : Int
  lat : Int
  notes : String
  nights : Int
  price_per_night : Option Int
  activities : List ActivitySnap
  deriving DecidableEq, Repr, Inhabited

/-- Movement record inside a version snapshot document; stops are referenced
by sort index, not identity. -/
structure MovementSnap where
  from_sort_index : Nat
  to_sort_index : Nat
  type : String
  duration_minutes : Option Int
  departure_time : Option Int
  arrival_time : Option Int
  carrier : String
  booking_ref : String
  notes : String
  price : Option Int
  deriving DecidableEq, Repr, Inhabited

/-- Version snapshot document (the structured payload stored per version). -/
structure Snapshot where
  stops : List StopSnap
  movements : List MovementSnap
  deriving DecidableEq, Repr, Inhabited

/-- Row of the trip_versions table. -/
structure TripVersion where
  id : Nat
  trip_id : Nat
  version_number : Nat
  label : String
  snapshot_data : Snapshot
  deriving DecidableEq, Repr, Inhabited

/-- All rows belonging to one trip: the state every router operation reads
and writes. -/
structure TripState where
  trip : Trip
  stops : List TripStop
  activities : List Activity
  photos : List ActivityPhoto
  movements : List Movement
  versions : List TripVersion
  deriving DecidableEq, Repr, Inhabited

/-- Comparator for `ORDER BY sort_index` on stops. -/
def stopLe (a b : TripStop) : Prop := a.sort_index ≤ b.sort_index

instance : DecidableRel stopLe :=
  fun a b => inferInstanceAs (Decidable (a.sort_index ≤ b.sort_index))

instance : IsTotal TripStop stopLe := ⟨fun a b => Nat.le_total a.sort_index b.sort_index⟩

instance : IsTrans TripStop stopLe := ⟨fun _ _ _ => Nat.le_trans⟩

/-- Comparator for `ORDER BY sort_index` on activities. -/
def actLe (a b : Activity) : Prop := a.sort_index ≤ b.sort_index

instance : DecidableRel actLe :=
  fun a b => inferInstanceAs (Decidable (a.sort_index ≤ b.sort_index))

instance : IsTotal Activity actLe := ⟨fun a b => Nat.le_total a.sort_index b.sort_index⟩

instance : IsTrans Activity actLe := ⟨fun _ _ _ => Nat.le_trans⟩

/-- Stops of the trip ordered by sort_index, as the routers query them. -/
def sortedStops (s : TripState) : List TripStop :=
  s.stops.insertionSort stopLe

/-- Activities of one stop ordered by sort_index, as the routers query them. -/
def sortedActivitiesOf (s : TripState) (stop_id : Nat) : List Activity :=
  (s.activities.filter (fun a => a.trip_stop_id == stop_id)).insertionSort actLe

/-- Photos of one activity, in table order (the photo relationship is read
without an explicit ordering). -/
def photosOf (s : TripState) (activity_id : Nat) : List ActivityPhoto :=
  s.photos.filter (fun p => p.activity_id == activity_id)

/-- Embedding of `db.get(Trip, trip_id)` on a single-trip state. -/
def db_get_trip (trip_id : Nat) (s : TripState) : Option Trip :=
  if trip_id = s.trip.id then some s.trip else none

/-- Ownership guard used by the trip-scoped routes: 404 when the trip does
not exist or belongs to another user. -/
def verify_trip_ownership (trip_id user_id : Nat) (s : TripState) : Except Err Trip :=
  match db_get_trip trip_id s with
  | none => .error .notFound
  | some t => if t.user_id = user_id then .ok t else .error .notFound

/-- Ownership guard for stop-scoped routes: 404 when the stop is absent or
its trip is not owned by the caller. -/
def verify_stop_ownership (stop_id user_id : Nat) (s : TripState) : Except Err TripStop :=
  match s.stops.find? (fun st => st.id == stop_id) with
  | none => .error .notFound
  | some st => if s.trip.user_id = user_id then .ok st else .error .notFound

/-- Ownership guard for activity-scoped routes. -/
def verify_activity_ownership (activity_id user_id : Nat) (s : TripState) :
    Except Err Activity :=
  match s.activities.find? (fun a => a.id == activity_id) with
  | none => .error .notFound
  | some a =>
    match s.stops.find? (fun st => st.id == a.trip_stop_id) with
    | none => .error .notFound
    | some _ => if s.trip.user_id = user_id then .ok a else .error .notFound

/-- Recompute of the trip's persisted end date from the sum of stop nights:
`end_date = start_date + max(total_nights - 1, 0)` days. -/
def recalculate_end_date (s : TripState) : TripState :=
  let total_nights : Int := (s.stops.map (fun st => st.nights)).sum
  { s with trip := { s.trip with end_date := s.trip.start_date + max (total_nights - 1) 0 } }

/-- Next auto-assigned sort index: `coalesce(max(sort_index), -1) + 1`. -/
def next_sort_index (idxs : List Nat) : Nat :=
  match idxs.maximum with
  | none => 0
  | some m => m + 1

/-- Request body for stop creation. -/
structure TripStopCreate where
  name : String
  lng : Int
  lat : Int
  notes : String
  nights : Int
  price_per_night : Option Int
  deriving DecidableEq, Repr

/-- Stop creation: auto-assign the next sort index, insert, recompute the
end date, all before commit.  `sid` is the database-generated row id. -/
def create_stop (trip_id user_id : Nat) (d : TripStopCreate) (sid : Nat)
    (s : TripState) : Except Err (TripState × TripStop) := do
  let _ ← verify_trip_ownership trip_id user_id s
  let next_index := next_sort_index (s.stops.map (fun st => st.sort_index))
  let stop : TripStop :=
    { id := sid, sort_index := next_index, name := d.name, lng := d.lng,
      lat := d.lat, notes := d.notes, nights := d.nights,
      price_per_night := d.price_per_night }
  let s1 := { s with stops := s.stops ++ [stop] }
  .ok (recalculate_end_date s1, stop)

/-- Request body for stop update (`exclude_unset` semantics: `none` means the
field was absent from the payload). -/
structure TripStopUpdate where
  name : Option String := none
  lng : Option Int := none
  lat : Option Int := none
  notes : Option String := none
  nights : Option Int := none
  price_per_night : Option (Option Int) := none
  deriving DecidableEq, Repr

/-- Application of a stop-update payload to a stop row. -/
def applyStopUpdate (d : TripStopUpdate) (st : TripStop) : TripStop :=
  { st with
    name := d.name.getD st.name
    lng := d.lng.getD st.lng
    lat := d.lat.getD st.lat
    notes := d.notes.getD st.notes
    nights := d.nights.getD st.nights
    price_per_night := d.price_per_night.getD st.price_per_night }

/-- Stop update: set the provided fields; recompute the end date only when
the payload contained `nights`. -/
def update_stop (stop_id user_id : Nat) (d : TripStopUpdate) (s : TripState) :
    Except Err (TripState × TripStop) := do
  let stop ← verify_stop_ownership stop_id user_id s
  let updated := applyStopUpdate d stop
  let s1 := { s with stops := s.stops.map (fun st => if st.id == stop_id then updated else st) }
  let s2 := if d.nights.isSome then recalculate_end_date s1 else s1
  .ok (s2, updated)

/-- Stop deletion: delete the stop's activities (and, by cascade, their
photos), every movement touching the stop, and the stop itself; then reload
the remaining stops ordered by sort_index and renumber them 0..n-1; finally
recompute the end date. -/
def delete_stop (stop_id user_id : Nat) (s : TripState) : Except Err TripState := do
  let _ ← verify_stop_ownership stop_id user_id s
  let deleted_act_ids := (s.activities.filter (fun a => a.trip_stop_id == stop_id)).map (fun a => a.id)
  let acts := s.activities.filter (fun a => a.trip_stop_id != stop_id)
  let photos := s.photos.filter (fun p => !(deleted_act_ids.contains p.activity_id))
  let movs := s.movements.filter (fun m => !(m.from_stop_id == stop_id || m.to_stop_id == stop_id))
  let remaining := (s.stops.filter (fun st => st.id != stop_id)).insertionSort stopLe
  let renumbered := remaining.enum.map (fun p => { p.2 with sort_index := p.1 })
  let s1 := { s with stops := renumbered, activities := acts, photos := photos, movements := movs }
  .ok (recalculate_end_date s1)

/-- Request body for the stop reorder route. -/
structure TripStopReorder where
  from_index : Int
  to_index : Int
  deriving DecidableEq, Repr

/-- Stop reorder: load the current order, reject out-of-range indices with a
validation error, splice (remove at source, reinsert at destination),
renumber 0..n-1, and delete every movement of the trip. -/
def reorder_stops (trip_id user_id : Nat) (d : TripStopReorder) (s : TripState) :
    Except Err (TripState × List TripStop) := do
  let _ ← verify_trip_ownership trip_id user_id s
  let stops := sortedStops s
  if d.from_index < 0 ∨ (stops.length : Int) ≤ d.from_index ∨
      d.to_index < 0 ∨ (stops.length : Int) ≤ d.to_index then
    throw .invalidIndex
  else
    match stops.get? d.from_index.toNat with
    | none => throw .invalidIndex
    | some moved =>
      let spliced := (stops.eraseIdx d.from_index.toNat).insertIdx d.to_index.toNat moved
      let renumbered := spliced.enum.map (fun p => { p.2 with sort_index := p.1 })
      .ok ({ s with stops := renumbered, movements := [] }, renumbered)

/-- Request body for activity creation. -/
structure ActivityCreate where
  title : String
  date : Option Int := none
  start_time : Option Int := none
  duration_minutes : Option Int := none
  lng : Option Int := none
  lat : Option Int := none
  address : String := ""
  notes : String := ""
  category : String := ""
  opening_hours : String := ""
  price_info : Option Int := none
  tips : String := ""
  website_url : String := ""
  phone : String := ""
  rating : Option Int := none
  guide_info : String := ""
  transport_info : String := ""
  opentripmap_xid : String := ""
  deriving DecidableEq, Repr

/-- Activity creation under a stop: auto-assign the next sort index among the
stop's activities and insert.  `aid` is the database-generated row id. -/
def create_activity (stop_id user_id : Nat) (d : ActivityCreate) (aid : Nat)
    (s : TripState) : Except Err (TripState × Activity) := do
  let _ ← verify_stop_ownership stop_id user_id s
  let next_index := next_sort_index
    ((s.activities.filter (fun a => a.trip_stop_id == stop_id)).map (fun a => a.sort_index))
  let act : Activity :=
    { id := aid, trip_stop_id := stop_id, sort_index := next_index,
      title := d.title, date := d.date, start_time := d.start_time,
      duration_minutes := d.duration_minutes, lng := d.lng, lat := d.lat,
      address := d.address, notes := d.notes, category := d.category,
      opening_hours := d.opening_hours, price := d.price_info, tips := d.tips,
      website_url := d.website_url, phone := d.phone, rating := d.rating,
      guide_info := d.guide_info, transport_info := d.transport_info,
      opentripmap_xid := d.opentripmap_xid }
  .ok ({ s with activities := s.activities ++ [act] }, act)

/-- Activity deletion: delete the row (photos cascade), then reload the
remaining activities of the same stop ordered by sort_index and renumber
them 0..n-1. -/
def delete_activity (activity_id user_id : Nat) (s : TripState) :
    Except Err TripState := do
  let act ← verify_activity_ownership activity_id user_id s
  let stop_id := act.trip_stop_id
  let remaining_all := s.activities.filter (fun a => a.id != activity_id)
  let others := remaining_all.filter (fun a => a.trip_stop_id != stop_id)
  let remaining := (remaining_all.filter (fun a => a.trip_stop_id == stop_id)).insertionSort actLe
  let renumbered := remaining.enum.map (fun p => { p.2 with sort_index := p.1 })
  let photos := s.photos.filter (fun p => p.activity_id != activity_id)
  .ok { s with activities := others ++ renumbered, photos := photos }

/-- Request body for trip update (`exclude_unset` semantics). -/
structure TripUpdate where
  name : Option String := none
  country_code : Option String := none
  start_date : Option Int := none
  status : Option String := none
  notes : Option String := none
  currency : Option String := none
  deriving DecidableEq, Repr

/-- Trip update: set the provided scalar fields.  The route performs no
end-date recomputation. -/
def update_trip (trip_id user_id : Nat) (d : TripUpdate) (s : TripState) :
    Except Err (TripState × Trip) :=
  match db_get_trip trip_id s with
  | none => .error .notFound
  | some t =>
    if t.user_id = user_id then
      let updated : Trip :=
        { t with
          name := d.name.getD t.name
          country_code := d.country_code.getD t.country_code
          start_date := d.start_date.getD t.start_date
          status := d.status.getD t.status
          notes := d.notes.getD t.notes
          currency := d.currency.getD t.currency }
      .ok ({ s with trip := updated }, updated)
    else .error .notFound

/-- Multiset of sort_index values of the trip's stops. -/
def stopIndexes (s : TripState) : List Nat :=
  s.stops.map (fun st => st.sort_index)

/-- Multiset of sort_index values of one stop's activities. -/
def activityIndexes (s : TripState) (stop_id : Nat) : List Nat :=
  (s.activities.filter (fun a => a.trip_stop_id == stop_id)).map (fun a => a.sort_index)

/-- Density: the indices are exactly `{0, ..., n-1}` as a multiset (dense,
zero-based, no duplicates, no gaps). -/
def denseIdx (idxs : List Nat) : Prop :=
  List.Perm idxs (List.range idxs.length)

instance (idxs : List Nat) : Decidable (denseIdx idxs) :=
  inferInstanceAs (Decidable (List.Perm idxs (List.range idxs.length)))

/-- Request body for the movement upsert route. -/
structure MovementCreate where
  from_stop_id : Nat
  to_stop_id : Nat
  type : String
  duration_minutes : Option Int := none
  departure_time : Option Int := none
  arrival_time : Option Int := none
  carrier : String := ""
  booking_ref : String := ""
  notes : String := ""
  price : Option Int := none
  deriving DecidableEq, Repr

/-- Movement upsert: the route only verifies that the trip exists (it takes
no authenticated user).  When a movement with the same (from, to) stops
already exists, its fields other than price are overwritten; otherwise a new
movement is created without a price.  `mid` is the database-generated id for
the creation case. -/
def upsert_movement (trip_id : Nat) (d : MovementCreate) (mid : Nat)
    (s : TripState) : Except Err (TripState × Movement) :=
  match db_get_trip trip_id s with
  | none => .error .notFound
  | some _ =>
    match s.movements.find? (fun m =>
        m.from_stop_id == d.from_stop_id && m.to_stop_id == d.to_stop_id) with
    | some existing =>
      let updated : Movement :=
        { existing with
          type := d.type, duration_minutes := d.duration_minutes,
          departure_time := d.departure_time, arrival_time := d.arrival_time,
          carrier := d.carrier, booking_ref := d.booking_ref, notes := d.notes }
      .ok ({ s with movements :=
               s.movements.map (fun m => if m.id == existing.id then updated else m) },
           updated)
    | none =>
      let movement : Movement :=
        { id := mid, from_stop_id := d.from_stop_id, to_stop_id := d.to_stop_id,
          type := d.type, duration_minutes := d.duration_minutes,
          departure_time := d.departure_time, arrival_time := d.arrival_time,
          carrier := d.carrier, booking_ref := d.booking_ref, notes := d.notes,
          price := none }
      .ok ({ s with movements := s.movements ++ [movement] }, movement)

/-- Request body for the movement update route (`exclude_unset` semantics). -/
structure MovementUpdate where
  type : Option String := none
  duration_minutes : Option (Option Int) := none
  departure_time : Option (Option Int) := none
  arrival_time : Option (Option Int) := none
  carrier : Option String := none
  booking_ref : Option String := none
  notes : Option String := none
  price : Option (Option Int) := none
  deriving DecidableEq, Repr

/-- Movement update: set the provided fields (including price).  The route
only verifies that the movement exists; it takes no authenticated user. -/
def update_movement (movement_id : Nat) (d : MovementUpdate) (s : TripState) :
    Except Err (TripState × Movement) :=
  match s.movements.find? (fun m => m.id == movement_id) with
  | none => .error .notFound
  | some m =>
    let updated : Movement :=
      { m with
        type := d.type.getD m.type
        duration_minutes := d.duration_minutes.getD m.duration_minutes
        departure_time := d.departure_time.getD m.departure_time
        arrival_time := d.arrival_time.getD m.arrival_time
        carrier := d.carrier.getD m.carrier
        booking_ref := d.booking_ref.getD m.booking_ref
        notes := d.notes.getD m.notes
        price := d.price.getD m.price }
    .ok ({ s with movements :=
             s.movements.map (fun x => if x.id == movement_id then updated else x) },
         updated)

/-- Movement deletion: the route only verifies that the movement exists; it
takes no authenticated user. -/
def delete_movement (movement_id : Nat) (s : TripState) : Except Err TripState :=
  match s.movements.find? (fun m => m.id == movement_id) with
  | none => .error .notFound
  | some _ =>
    .ok { s with movements := s.movements.filter (fun m => m.id != movement_id) }

/-- Serialization of one photo row into the snapshot document. -/
def snapPhoto (p : ActivityPhoto) : PhotoSnap :=
  { url := p.url, thumbnail_url := p.thumbnail_url, attribution := p.attribution,
    photographer_name := p.photographer_name, photographer_url := p.photographer_url,
    source := p.source, width := p.width, height := p.height,
    sort_index := p.sort_index }

/-- Serialization of one activity row (with its photos) into the snapshot
document. -/
def snapActivity (s : TripState) (a : Activity) : ActivitySnap :=
  { sort_index := a.sort_index, title := a.title, date := a.date,
    start_time := a.start_time, duration_minutes := a.duration_minutes,
    lng := a.lng, lat := a.lat, address := a.address, notes := a.notes,
    category := a.category, opening_hours := a.opening_hours, price := a.price,
    tips := a.tips, website_url := a.website_url, phone := a.phone,
    rating := a.rating, guide_info := a.guide_info,
    transport_info := a.transport_info, opentripmap_xid := a.opentripmap_xid,
    photos := (photosOf s a.id).map snapPhoto }

/-- Serialization of one stop row (with its activities) into the snapshot
document. -/
def snapStop (s : TripState) (st : TripStop) : StopSnap :=
  { sort_index := st.sort_index, name := st.name, lng := st.lng, lat := st.lat,
    notes := st.notes, nights := st.nights, price_per_night := st.price_per_night,
    activities := (sortedActivitiesOf s st.id).map (snapActivity s) }

/-- Lookup of a stop's sort index by its id, as the snapshot builder's
`{stop.id: stop.sort_index}` map. -/
def stopIdToSortIndex (stops : List TripStop) (sid : Nat) : Option Nat :=
  (stops.find? (fun st => st.id == sid)).map (fun st => st.sort_index)

/-- Serialization of the current trip state into a self-contained snapshot:
stops ordered by sort_index with nested activities and photos, and movements
keyed by the sort indices of their endpoint stops.  Movements whose endpoints
do not resolve to stops of the trip are skipped. -/
def _build_snapshot (s : TripState) : Snapshot :=
  let stops := sortedStops s
  { stops := stops.map (snapStop s)
    movements := s.movements.filterMap (fun m =>
      match stopIdToSortIndex stops m.from_stop_id, stopIdToSortIndex stops m.to_stop_id with
      | some fi, some ti =>
        some { from_sort_index := fi, to_sort_index := ti, type := m.type,
               duration_minutes := m.duration_minutes,
               departure_time := m.departure_time, arrival_time := m.arrival_time,
               carrier := m.carrier, booking_ref := m.booking_ref,
               notes := m.notes, price := m.price }
      | _, _ => none) }

/-- Version creation: auto-increment the version number as
`coalesce(max(version_number), 0) + 1`, build the snapshot, insert the
version row.  `vid` is the database-generated row id. -/
def create_version (trip_id user_id : Nat) (label : String) (vid : Nat)
    (s : TripState) : Except Err (TripState × TripVersion) := do
  let _ ← verify_trip_ownership trip_id user_id s
  let max_version := match (s.versions.map (fun v => v.version_number)).maximum with
    | none => 0
    | some m => m
  let version : TripVersion :=
    { id := vid, trip_id := trip_id, version_number := max_version + 1,
      label := label, snapshot_data := _build_snapshot s }
  .ok ({ s with versions := s.versions ++ [version] }, version)

/-- Version deletion: 404 when the version is absent or belongs to another
trip; otherwise remove the row. -/
def delete_version (trip_id version_id user_id : Nat) (s : TripState) :
    Except Err TripState := do
  let _ ← verify_trip_ownership trip_id user_id s
  match s.versions.find? (fun v => v.id == version_id) with
  | none => .error .notFound
  | some v =>
    if v.trip_id = trip_id then
      .ok { s with versions := s.versions.filter (fun w => w.id != version_id) }
    else .error .notFound

/-- Materialization of snapshot photos under a freshly created activity.
Fresh row ids are drawn from the counter `c` (standing for `uuid4`), which is
returned advanced past every id consumed. -/
def restore_photos (activity_id : Nat) : Nat → List PhotoSnap → List ActivityPhoto × Nat
  | c, [] => ([], c)
  | c, p :: rest =>
    let photo : ActivityPhoto :=
      { id := c, activity_id := activity_id, url := p.url,
        thumbnail_url := p.thumbnail_url, attribution := p.attribution,
        photographer_name := p.photographer_name,
        photographer_url := p.photographer_url, source := p.source,
        width := p.width, height := p.height, sort_index := p.sort_index }
    let r := restore_photos activity_id (c + 1) rest
    (photo :: r.1, r.2)

/-- Materialization of snapshot activities (each with its nested photos)
under a freshly created stop. -/
def restore_activities (stop_id : Nat) :
    Nat → List ActivitySnap → List (Activity × List ActivityPhoto) × Nat
  | c, [] => ([], c)
  | c, a :: rest =>
    let act : Activity :=
      { id := c, trip_stop_id := stop_id, sort_index := a.sort_index,
        title := a.title, date := a.date, start_time := a.start_time,
        duration_minutes := a.duration_minutes, lng := a.lng, lat := a.lat,
        address := a.address, notes := a.notes, category := a.category,
        opening_hours := a.opening_hours, price := a.price, tips := a.tips,
        website_url := a.website_url, phone := a.phone, rating := a.rating,
        guide_info := a.guide_info, transport_info := a.transport_info,
        opentripmap_xid := a.opentripmap_xid }
    let rp := restore_photos act.id (c + 1) a.photos
    let rr := restore_activities stop_id rp.2 rest
    ((act, rp.1) :: rr.1, rr.2)

/-- Materialization of snapshot stops with fresh identities (each with its
nested activities and photos), also building the sort_index → new stop id map
used to re-target movements.  The map is ordered so that a lookup sees the
entry written last, as a dict would. -/
def restore_stops :
    Nat → List StopSnap →
      List (TripStop × List (Activity × List ActivityPhoto)) × List (Nat × Nat) × Nat
  | c, [] => ([], [], c)
  | c, sd :: rest =>
    let stop : TripStop :=
      { id := c, sort_index := sd.sort_index, name := sd.name, lng := sd.lng,
        lat := sd.lat, notes := sd.notes, nights := sd.nights,
        price_per_night := sd.price_per_night }
    let ra := restore_activities stop.id (c + 1) sd.activities
    let rr := restore_stops ra.2 rest
    ((stop, ra.1) :: rr.1, rr.2.1 ++ [(sd.sort_index, stop.id)], rr.2.2)

/-- Re-creation of snapshot movements through the sort_index → new stop id
map; movements whose endpoints do not resolve are silently skipped. -/
def restore_movements (mp : List (Nat × Nat)) :
    Nat → List MovementSnap → List Movement × Nat
  | c, [] => ([], c)
  | c, md :: rest =>
    match mp.find? (fun p => p.1 == md.from_sort_index),
          mp.find? (fun p => p.1 == md.to_sort_index) with
    | some f, some t =>
      let m : Movement :=
        { id := c, from_stop_id := f.2, to_stop_id := t.2, type := md.type,
          duration_minutes := md.duration_minutes,
          departure_time := md.departure_time, arrival_time := md.arrival_time,
          carrier := md.carrier, booking_ref := md.booking_ref,
          notes := md.notes, price := md.price }
      let r := restore_movements mp (c + 1) rest
      (m :: r.1, r.2)
    | _, _ => restore_movements mp c rest

/-- State replacement performed by a destructive restore: the trip's
movements and stops (activities and photos cascading with them) are deleted,
then the snapshot's stops, activities, photos and movements are recreated
with fresh identities drawn from the counter `c`. -/
def restoredState (snap : Snapshot) (c : Nat) (s : TripState) : TripState :=
  let rs := restore_stops c snap.stops
  let blocks := rs.1
  { s with stops := blocks.map (fun b => b.1),
           activities := blocks.flatMap (fun b => b.2.map (fun pr => pr.1)),
           photos := blocks.flatMap (fun b => b.2.flatMap (fun pr => pr.2)),
           movements := (restore_movements rs.2.1 rs.2.2 snap.movements).1 }

/-- Destructive restore: 404 when the version is absent or belongs to another
trip; otherwise replace the trip itinerary with the snapshot content via
`restoredState`.  The version row itself is untouched and returned. -/
def restore_version (trip_id version_id user_id : Nat) (c : Nat) (s : TripState) :
    Except Err (TripState × TripVersion) := do
  let _ ← verify_trip_ownership trip_id user_id s
  match s.versions.find? (fun v => v.id == version_id) with
  | none => .error .notFound
  | some v =>
    if v.trip_id = trip_id then
      .ok (restoredState v.snapshot_data c s, v)
    else .error .notFound

/-- Budget projection returned by the read paths. -/
structure BudgetSummary where
  activities_total : Int := 0
  accommodation_total : Int := 0
  transport_total : Int := 0
  grand_total : Int := 0
  deriving DecidableEq, Repr, Inhabited

/-- Modelled from the spec: the generation router imports `compute_budget`
from the trips module, but the definition is absent from the source tree
(only this call site is present).  Per the spec, the budget is
Σ activity.price (default 0) + Σ (stop.price_per_night default 0 × nights)
+ Σ movement.price (default 0). -/
def compute_budget (stops : List TripStop) (activities : List Activity)
    (movements : List Movement) : BudgetSummary :=
  let activities_total := (activities.map (fun a => a.price.getD 0)).sum
  let accommodation_total :=
    (stops.map (fun st => st.price_per_night.getD 0 * st.nights)).sum
  let transport_total := (movements.map (fun m => m.price.getD 0)).sum
  { activities_total := activities_total,
    accommodation_total := accommodation_total,
    transport_total := transport_total,
    grand_total := activities_total + accommodation_total + transport_total }

/-- Lookup in the `{movement.from_stop_id: movement}` index (a dict built in
list order, so the entry written last wins). -/
def movementByFrom (movements : List Movement) (sid : Nat) : Option Movement :=
  movements.reverse.find? (fun m => m.from_stop_id == sid)

/-- One entry of an assembled itinerary: a stop with its ordered activities
and its at-most-one outgoing movement. -/
structure ItineraryStopResponse where
  stop : TripStop
  activities : List Activity
  movement_to_next : Option Movement
  deriving DecidableEq, Repr, Inhabited

/-- Assembled itinerary response; the budget field has a schema default of
all zeroes that applies when the route does not pass one. -/
structure ItineraryResponse where
  trip : Trip
  stops : List ItineraryStopResponse
  budget : BudgetSummary := {}
  deriving DecidableEq, Repr, Inhabited

/-- All activities of the trip's stops in one sort_index-ordered query, as
`load_itinerary` fetches them. -/
def loadAllActivities (s : TripState) : List Activity :=
  (s.activities.filter (fun a =>
    (s.stops.map (fun st => st.id)).contains a.trip_stop_id)).insertionSort actLe

/-- Shared fragment of the read paths: stops ordered by sort_index, each with
its activities ordered by sort_index and its outgoing movement. -/
def assembleItineraryStops (s : TripState) : List ItineraryStopResponse :=
  (sortedStops s).map (fun st =>
    { stop := st, activities := sortedActivitiesOf s st.id,
      movement_to_next := movementByFrom s.movements st.id })

/-- Owner itinerary view: assemble the graph and answer with the response
model; the route passes no budget, so the schema default applies. -/
def get_itinerary (trip_id user_id : Nat) (s : TripState) :
    Except Err ItineraryResponse := do
  let trip ← verify_trip_ownership trip_id user_id s
  .ok { trip := trip, stops := assembleItineraryStops s }

/-- Public share view response; as in the owner view, the budget field has a
schema default of all zeroes. -/
structure SharedTripResponse where
  trip_name : String
  country_code : String
  start_date : Int
  end_date : Int
  status : String
  stops : List ItineraryStopResponse
  budget : BudgetSummary := {}
  deriving DecidableEq, Repr, Inhabited

/-- Public share view for a resolved, non-expired token: assemble the same
graph and answer without a budget, so the schema default applies.  Token
lookup and expiry are request glue outside the core and are elided. -/
def get_shared_trip (s : TripState) : SharedTripResponse :=
  { trip_name := s.trip.name, country_code := s.trip.country_code,
    start_date := s.trip.start_date, end_date := s.trip.end_date,
    status := s.trip.status, stops := assembleItineraryStops s }

/-- Candidate activity of a generation request, as loose tool output; every
field may be absent.  A supplied date is carried but never read by the
ingestion. -/
structure RawActivity where
  title : Option String := none
  day_offset : Int := 0
  date : Option Int := none
  start_time : Option Int := none
  duration_minutes : Option Int := none
  lng : Option Int := none
  lat : Option Int := none
  address : Option String := none
  notes : Option String := none
  category : Option String := none
  price : Option Int := none
  deriving DecidableEq, Repr

/-- Candidate stop of a generation request. -/
structure RawStop where
  name : Option String := none
  lng : Option Int := none
  lat : Option Int := none
  nights : Option Int := none
  notes : Option String := none
  price_per_night : Option Int := none
  activities : List RawActivity := []
  deriving DecidableEq, Repr

/-- Candidate movement of a generation request, referencing stops by array
position. -/
structure RawMovement where
  from_stop_index : Option Int := none
  to_stop_index : Option Int := none
  type : Option String := none
  duration_minutes : Option Int := none
  carrier : Option String := none
  notes : Option String := none
  price : Option Int := none
  deriving DecidableEq, Repr

/-- Candidate itinerary (the tool-call payload). -/
structure Candidate where
  stops : List RawStop := []
  movements : List RawMovement := []
  deriving DecidableEq, Repr

/-- Movement types the ingestion accepts verbatim. -/
def VALID_MOVEMENT_TYPES : List String :=
  ["train", "bus", "flight", "car", "ferry", "walk"]

/-- Activity categories the ingestion accepts verbatim. -/
def VALID_CATEGORIES : List String :=
  ["sightseeing", "food", "museum", "outdoors", "shopping",
   "nightlife", "culture", "relaxation", "adventure", "transport", ""]

/-- Cap on the number of candidate stops kept by the ingestion. -/
def MAX_STOPS : Nat := 20

/-- Truncation of a string to its first `n` characters, as Python slicing
does (evaluation-friendly form of character-wise take). -/
def truncate (s : String) (n : Nat) : String := String.mk (s.data.take n)

/-- Clamp of a candidate coordinate pair to valid ranges. -/
def _validate_coordinate (lng lat : Int) : Int × Int :=
  (max (-180) (min 180 lng), max (-90) (min 90 lat))

/-- Ingestion of the candidate stops: one stop per candidate (in order, ids
from the counter), with clamped coordinates, nights floored at 1, and
free-text fields truncated.  Also threads the running sum of nights so each
stop records the cumulative nights of the candidates before it. -/
def genStops :
    Nat → Nat → Int → List RawStop → List TripStop × List Int
  | _, _, _, [] => ([], [])
  | idx, c, nights_so_far, r :: rest =>
    let ll := _validate_coordinate (r.lng.getD 0) (r.lat.getD 0)
    let nights := max 1 (r.nights.getD 1)
    let stop : TripStop :=
      { id := c, sort_index := idx, name := truncate (r.name.getD "Unknown") 200,
        lng := ll.1, lat := ll.2, notes := truncate (r.notes.getD "") 10000,
        nights := nights, price_per_night := r.price_per_night }
    let r := genStops (idx + 1) (c + 1) (nights_so_far + nights) rest
    (stop :: r.1, nights_so_far :: r.2)

/-- Ingestion of one stop's candidate activities: the stored date is computed
from the trip start, the cumulative nights of the prior stops, and the
day_offset floored at 0 — never from a supplied date.  Unrecognized
categories become blank. -/
def genActivities (stop_id : Nat) (start_date cum_nights : Int) :
    Nat → Nat → List RawActivity → List Activity × Nat
  | _, c, [] => ([], c)
  | act_idx, c, ra :: rest =>
    let day_offset := max 0 ra.day_offset
    let activity_date := start_date + cum_nights + day_offset
    let coords : Option Int × Option Int :=
      match ra.lng, ra.lat with
      | some lng, some lat =>
        let ll := _validate_coordinate lng lat
        (some ll.1, some ll.2)
      | _, _ => (none, none)
    let category0 := ra.category.getD ""
    let category := if VALID_CATEGORIES.contains category0 then category0 else ""
    let act : Activity :=
      { id := c, trip_stop_id := stop_id, sort_index := act_idx,
        title := truncate (ra.title.getD "Activity") 200, date := some activity_date,
        start_time := ra.start_time, duration_minutes := ra.duration_minutes,
        lng := coords.1, lat := coords.2, address := truncate (ra.address.getD "") 500,
        notes := truncate (ra.notes.getD "") 10000, category := category,
        opening_hours := "", price := ra.price, tips := "", website_url := "",
        phone := "", rating := none, guide_info := "", transport_info := "",
        opentripmap_xid := "" }
    let r := genActivities stop_id start_date cum_nights (act_idx + 1) (c + 1) rest
    (act :: r.1, r.2)

/-- Ingestion of all candidate activities, stop by stop: the kept candidate
stops are walked in parallel with their created rows and cumulative-nights
values, as the source indexes `created_stops` and `cumulative_nights` by the
stop's position. -/
def genAllActivities (start_date : Int) :
    Nat → List RawStop → List TripStop → List Int →
      List (TripStop × List Activity) × Nat
  | c, r :: rs, st :: sts, cum :: cums =>
    let ga := genActivities st.id start_date cum 0 c r.activities
    let rr := genAllActivities start_date ga.2 rs sts cums
    ((st, ga.1) :: rr.1, rr.2)
  | c, _, _, _ => ([], c)

/-- Ingestion of the candidate movements: endpoints resolve by array position
into the created stops; absent, out-of-range or equal positions and (from,
to) pairs already seen are silently dropped; unrecognized types fall back to
"train". -/
def genMovements (created_stops : List TripStop) :
    Nat → List (Int × Int) → List RawMovement → List Movement
  | _, _, [] => []
  | c, seen, rm :: rest =>
    match rm.from_stop_index, rm.to_stop_index with
    | some fi, some ti =>
      if fi < 0 ∨ ti < 0 ∨ (created_stops.length : Int) ≤ fi ∨
          (created_stops.length : Int) ≤ ti ∨ fi = ti then
        genMovements created_stops c seen rest
      else if seen.contains (fi, ti) then
        genMovements created_stops c seen rest
      else
        match created_stops.get? fi.toNat, created_stops.get? ti.toNat with
        | some fs, some ts =>
          let type0 := rm.type.getD "train"
          let mov_type := if VALID_MOVEMENT_TYPES.contains type0 then type0 else "train"
          let m : Movement :=
            { id := c, from_stop_id := fs.id, to_stop_id := ts.id,
              type := mov_type, duration_minutes := rm.duration_minutes,
              departure_time := none, arrival_time := none,
              carrier := truncate (rm.carrier.getD "") 200, booking_ref := "",
              notes := truncate (rm.notes.getD "") 10000, price := rm.price }
          m :: genMovements created_stops (c + 1) ((fi, ti) :: seen) rest
        | _, _ => genMovements created_stops c seen rest
    | _, _ => genMovements created_stops c seen rest

/-- Core state replacement performed by generation ingestion: truncate to
the stop cap, replace the trip's stops/activities/movements with the clamped
candidate data (fresh row ids drawn from the counter `c`), and recompute the
end date. -/
def applyGeneration (cand : Candidate) (c : Nat) (s : TripState) : TripState :=
  let raw_stops := cand.stops.take MAX_STOPS
  let g := genStops 0 c 0 raw_stops
  let ga := genAllActivities s.trip.start_date (c + g.1.length) raw_stops g.1 g.2
  recalculate_end_date
    { s with stops := g.1,
             activities := ga.1.flatMap (fun b => b.2),
             photos := [],
             movements := genMovements g.1 ga.2 [] cand.movements }

/-- Generation ingestion: reject an empty candidate before any write,
replace the trip's itinerary via `applyGeneration`, and answer with the
reloaded itinerary and its computed budget. -/
def generate_itinerary (trip_id user_id : Nat) (cand : Candidate) (c : Nat)
    (s : TripState) : Except Err (TripState × ItineraryResponse) := do
  let _ ← verify_trip_ownership trip_id user_id s
  if cand.stops.isEmpty then
    throw .noStops
  else
    let s2 := applyGeneration cand c s
    let resp : ItineraryResponse :=
      { trip := s2.trip, stops := assembleItineraryStops s2,
        budget := compute_budget (sortedStops s2) (loadAllActivities s2) s2.movements }
    .ok (s2, resp)

/-- Reassembly of a restored activity (with its photo rows) into its
snapshot record; used to state that a restore materializes the snapshot
verbatim. -/
def pairToActSnap (pr : Activity × List ActivityPhoto) : ActivitySnap :=
  { sort_index := pr.1.sort_index, title := pr.1.title, date := pr.1.date,
    start_time := pr.1.start_time, duration_minutes := pr.1.duration_minutes,
    lng := pr.1.lng, lat := pr.1.lat, address := pr.1.address,
    notes := pr.1.notes, category := pr.1.category,
    opening_hours := pr.1.opening_hours, price := pr.1.price,
    tips := pr.1.tips, website_url := pr.1.website_url, phone := pr.1.phone,
    rating := pr.1.rating, guide_info := pr.1.guide_info,
    transport_info := pr.1.transport_info,
    opentripmap_xid := pr.1.opentripmap_xid,
    photos := pr.2.map snapPhoto }

/-- Reassembly of a restored stop block into its snapshot record. -/
def blockToStopSnap (b : TripStop × List (Activity × List ActivityPhoto)) : StopSnap :=
  { sort_index := b.1.sort_index, name := b.1.name, lng := b.1.lng,
    lat := b.1.lat, notes := b.1.notes, nights := b.1.nights,
    price_per_night := b.1.price_per_night,
    activities := b.2.map pairToActSnap }

/-- Identities allocated for one restored activity: the activity's own id
followed by its photos' ids. -/
def pairIds (pr : Activity × List ActivityPhoto) : List Nat :=
  pr.1.id :: pr.2.map (fun p => p.id)

/-- Identities allocated for one restored stop block: the stop's id followed
by its activities' and photos' ids. -/
def blockIds (b : TripStop × List (Activity × List ActivityPhoto)) : List Nat :=
  b.1.id :: b.2.flatMap pairIds

/-- End-date invariant maintained by the recomputation helper:
`end_date = start_date + max(sum of nights - 1, 0)`. -/
def endDateInv (s : TripState) : Prop :=
  s.trip.end_date = s.trip.start_date + max (((s.stops.map (fun st => st.nights)).sum) - 1) 0

instance (s : TripState) : Decidable (endDateInv s) :=
  inferInstanceAs (Decidable (_ = _))

/-- Identities of every itinerary entity (stops, activities, photos,
movements) of the trip. -/
def allEntityIds (s : TripState) : List Nat :=
  s.stops.map (fun st => st.id) ++ s.activities.map (fun a => a.id) ++
    s.photos.map (fun p => p.id) ++ s.movements.map (fun m => m.id)

/-- Identity-free stop row content, for stating that a reorder permutes rows
without touching their payload. -/
def stopRowData (st : TripStop) : Nat × String × Int × Int × String × Int × Option Int :=
  (st.id, st.name, st.lng, st.lat, st.notes, st.nights, st.price_per_night)

/-- Statement-side characterization, following the claim's wording, of which
candidate movements survive ingestion: a movement is kept when both positions
are present and in range for the kept stops, its endpoints differ, and its
(from, to) pair has not already been kept; kept pairs appear in candidate
order. -/
def keptMovementPairsSpec (n : Nat) (ms : List RawMovement) : List (Int × Int) :=
  ms.foldl (fun acc rm =>
    match rm.from_stop_index, rm.to_stop_index with
    | some fi, some ti =>
      if 0 ≤ fi ∧ fi < (n : Int) ∧ 0 ≤ ti ∧ ti < (n : Int) ∧ fi ≠ ti ∧
          ¬ acc.contains (fi, ti) then
        acc ++ [(fi, ti)]
      else acc
    | _, _ => acc) []

/-- Statement-side recursion equivalent to the claim's filter: walks the
candidate movements keeping valid, first-occurrence pairs, threading the set
of pairs already kept. -/
def keptAux (n : Nat) (seen : List (Int × Int)) : List RawMovement → List (Int × Int)
  | [] => []
  | rm :: rest =>
    match rm.from_stop_index, rm.to_stop_index with
    | some fi, some ti =>
      if 0 ≤ fi ∧ fi < (n : Int) ∧ 0 ≤ ti ∧ ti < (n : Int) ∧ fi ≠ ti ∧
          ¬ seen.contains (fi, ti) then
        (fi, ti) :: keptAux n ((fi, ti) :: seen) rest
      else keptAux n seen rest
    | _, _ => keptAux n seen rest

/-- Extraction of the state from a successful operation returning a pair. -/
def okSt {β : Type} (e : Except Err (TripState × β)) : TripState :=
  match e with
  | .ok p => p.1
  | .error _ => default

/-- Extraction of the returned entity from a successful operation. -/
def okSnd {β : Type} [Inhabited β] (e : Except Err (TripState × β)) : β :=
  match e with
  | .ok p => p.2
  | .error _ => default

/-- Extraction of the value of a successful operation. -/
def okVal {α : Type} [Inhabited α] (e : Except Err α) : α :=
  match e with
  | .ok v => v
  | .error _ => default

/-- Extraction of the state from a successful operation returning only a
state. -/
def okOnly (e : Except Err TripState) : TripState :=
  match e with
  | .ok t => t
  | .error _ => default

/-- Concrete trip used by the witnesses: owned by user 1, start day 0, end
day consistent with its stops' five nights. -/
def demoTrip : Trip :=
  { id := 1, user_id := 1, name := "Italy", country_code := "IT",
    start_date := 0, end_date := 4, status := "planning", notes := "",
    currency := "EUR" }

/-- Concrete well-formed state used by the witnesses: two stops, one
activity with a photo, one movement. -/
def demoState : TripState :=
  { trip := demoTrip
    stops :=
      [ { id := 10, sort_index := 0, name := "Rome", lng := 12, lat := 41,
          notes := "", nights := 2, price_per_night := some 100 },
        { id := 11, sort_index := 1, name := "Florence", lng := 11, lat := 43,
          notes := "", nights := 3, price_per_night := some 50 } ]
    activities :=
      [ { id := 20, trip_stop_id := 10, sort_index := 0, title := "Colosseum",
          date := some 0, start_time := some 540, duration_minutes := some 120,
          lng := some 12, lat := some 41, address := "Piazza del Colosseo",
          notes := "", category := "sightseeing", opening_hours := "",
          price := some 16, tips := "", website_url := "", phone := "",
          rating := none, guide_info := "", transport_info := "",
          opentripmap_xid := "" } ]
    photos :=
      [ { id := 30, activity_id := 20, url := "u", thumbnail_url := "t",
          attribution := "a", photographer_name := "p", photographer_url := "pu",
          source := "unsplash", width := some 640, height := some 480,
          sort_index := 0 } ]
    movements :=
      [ { id := 40, from_stop_id := 10, to_stop_id := 11, type := "train",
          duration_minutes := some 95, departure_time := none,
          arrival_time := none, carrier := "Trenitalia", booking_ref := "",
          notes := "", price := some 45 } ]
    versions := [] }

/-- Concrete stop-creation payload used by the witnesses. -/
def demoStopCreate : TripStopCreate :=
  { name := "Venice", lng := 12, lat := 45, notes := "", nights := 1,
    price_per_night := none }

/-- Concrete candidate itinerary used by the generation witnesses: two stops
with one activity, one valid movement, one out-of-range movement, one
self-loop, and one duplicate. -/
def demoCandidate : Candidate :=
  { stops :=
      [ { name := some "Rome", lng := some 12, lat := some 41,
          nights := some 2, price_per_night := some 120,
          activities :=
            [ { title := some "Colosseum", day_offset := 0,
                date := some 77, price := some 16 },
              { title := some "Forum", day_offset := 1, price := none } ] },
        { name := some "Florence", lng := some 200, lat := some (-95),
          nights := some 0, price_per_night := some 110,
          activities := [ { title := some "Uffizi", day_offset := 0, price := some 20 } ] } ]
    movements :=
      [ { from_stop_index := some 0, to_stop_index := some 1,
          type := some "train", price := some 45 },
        { from_stop_index := some 0, to_stop_index := some 99, type := some "bus" },
        { from_stop_index := some 1, to_stop_index := some 1, type := some "car" },
        { from_stop_index := some 0, to_stop_index := some 1, type := some "ferry" } ] }

/-- Candidate with 25 stops (and the movements above) used to witness
truncation to the 20-stop cap. -/
def bigCandidate : Candidate :=
  { stops := List.replicate 25
      ({ name := some "X", lng := some 1, lat := some 1, nights := some 1 } : RawStop)
    movements := demoCandidate.movements }

/-- Version-creation chain used by the C4 analysis: three versions are
created, then the one holding the maximum number is deleted, then another is
created. -/
def c4s1 : TripState := okSt (create_version 1 1 "v1" 101 demoState)

/-- Second state of the version chain. -/
def c4s2 : TripState := okSt (create_version 1 1 "v2" 102 c4s1)

/-- Third state of the version chain. -/
def c4s3 : TripState := okSt (create_version 1 1 "v3" 103 c4s2)

/-- State after deleting the version holding the maximum version_number. -/
def c4s4 : TripState := okOnly (delete_version 1 103 1 c4s3)

/-- Result of ingesting the demo candidate into the demo trip. -/
def demoGen : Except Err (TripState × ItineraryResponse) :=
  generate_itinerary 1 1 demoCandidate 500 demoState

/-- Second created stop of the demo generation (the clamped Florence). -/
def demoGenStop1 : TripStop := (okSt demoGen).stops.getD 1 default

theorem errBind {α β : Type} (e : Err) (f : α → Except Err β) :
    (Except.error e >>= f) = Except.error e := rfl

theorem okBind {α β : Type} (a : α) (f : α → Except Err β) :
    (Except.ok a >>= f) = f a := rfl

theorem next_sort_index_eq_length {idxs : List Nat} (h : denseIdx idxs) :
    next_sort_index idxs = idxs.length := by
  unfold next_sort_index
  cases hm : idxs.maximum with
  | bot =>
    have he : idxs = [] := List.maximum_eq_none.mp hm
    simp [he, hm]
  | coe m =>
    change m + 1 = idxs.length
    have hmem : m ∈ idxs := List.maximum_mem hm
    have hlt : m < idxs.length := by
      have h1 := h.mem_iff.mp hmem
      simpa using List.mem_range.mp h1
    have hpos : 0 < idxs.length := List.length_pos.mpr (by rintro rfl; simp at hmem)
    have hmem2 : idxs.length - 1 ∈ idxs := h.mem_iff.mpr (List.mem_range.mpr (by omega))
    have hle : idxs.length - 1 ≤ m := by
      have h2 := List.le_maximum_of_mem hmem2 hm
      exact_mod_cast h2
    omega

theorem denseIdx_nil : denseIdx [] := by
  unfold denseIdx; simp

theorem denseIdx_append_length {idxs : List Nat} (h : denseIdx idxs) :
    denseIdx (idxs ++ [idxs.length]) := by
  unfold denseIdx at h ⊢
  have hl : (idxs ++ [idxs.length]).length = idxs.length + 1 := by simp
  rw [hl, List.range_succ]
  exact h.append (List.Perm.refl _)

theorem denseIdx_of_eq_range {idxs : List Nat} {n : Nat} (h : idxs = List.range n) :
    denseIdx idxs := by
  subst h
  unfold denseIdx
  simp

theorem stop_renumber_indexes (l : List TripStop) :
    (l.enum.map (fun p => { p.2 with sort_index := p.1 })).map (fun st => st.sort_index)
      = List.range l.length := by
  rw [List.map_map]
  have hc : ((fun st : TripStop => st.sort_index) ∘
      (fun p : Nat × TripStop => { p.2 with sort_index := p.1 })) = Prod.fst := rfl
  rw [hc, List.enum_map_fst]

theorem act_renumber_indexes (l : List Activity) :
    (l.enum.map (fun p => { p.2 with sort_index := p.1 })).map (fun a => a.sort_index)
      = List.range l.length := by
  rw [List.map_map]
  have hc : ((fun a : Activity => a.sort_index) ∘
      (fun p : Nat × Activity => { p.2 with sort_index := p.1 })) = Prod.fst := rfl
  rw [hc, List.enum_map_fst]

theorem stopIndexes_recalculate (s : TripState) :
    stopIndexes (recalculate_end_date s) = stopIndexes s := rfl

theorem activityIndexes_recalculate (s : TripState) (x : Nat) :
    activityIndexes (recalculate_end_date s) x = activityIndexes s x := rfl

theorem act_renumber_keeps_parent (l : List Activity) (x : Nat)
    (hall : ∀ a ∈ l, a.trip_stop_id = x) :
    ∀ b ∈ l.enum.map (fun p => { p.2 with sort_index := p.1 }), b.trip_stop_id = x := by
  intro b hb
  rcases List.mem_map.mp hb with ⟨p, hp, rfl⟩
  have hsnd : p.2 ∈ l := by
    have : p.2 ∈ l.enum.map Prod.snd := List.mem_map_of_mem Prod.snd hp
    rwa [List.enum_map_snd] at this
  exact hall p.2 hsnd

/-- C1 helper: stop insertion preserves density of the trip's stop indices. -/
theorem create_stop_dense (s : TripState) (trip_id user_id : Nat)
    (d : TripStopCreate) (sid : Nat) (out : TripState × TripStop)
    (hok : create_stop trip_id user_id d sid s = .ok out)
    (h : denseIdx (stopIndexes s)) : denseIdx (stopIndexes out.1) := by
  unfold create_stop at hok
  cases hv : verify_trip_ownership trip_id user_id s with
  | error e => rw [hv, errBind] at hok; exact absurd hok (by simp)
  | ok t =>
    rw [hv, okBind] at hok
    have h1 : out.1 = recalculate_end_date
        { s with stops := s.stops ++
            [{ id := sid,
               sort_index := next_sort_index (s.stops.map (fun st => st.sort_index)),
               name := d.name, lng := d.lng, lat := d.lat, notes := d.notes,
               nights := d.nights, price_per_night := d.price_per_night }] } := by
      cases hok
      rfl
    rw [h1, stopIndexes_recalculate]
    unfold stopIndexes at h ⊢
    simp only [List.map_append, List.map_cons, List.map_nil]
    have hn : next_sort_index (s.stops.map (fun st => st.sort_index))
        = (s.stops.map (fun st => st.sort_index)).length := next_sort_index_eq_length h
    rw [hn]
    exact denseIdx_append_length h

/-- C1 helper: after a stop deletion the remaining stops are renumbered
0..n-1, and every stop's activity-index multiset is unchanged or emptied. -/
theorem delete_stop_dense (s : TripState) (stop_id user_id : Nat) (s' : TripState)
    (hok : delete_stop stop_id user_id s = .ok s') :
    denseIdx (stopIndexes s') ∧
      (∀ x, denseIdx (activityIndexes s x) → denseIdx (activityIndexes s' x)) := by
  unfold delete_stop at hok
  cases hv : verify_stop_ownership stop_id user_id s with
  | error e => rw [hv, errBind] at hok; exact absurd hok (by simp)
  | ok st =>
    rw [hv, okBind, Except.ok.injEq] at hok
    subst hok
    constructor
    · rw [stopIndexes_recalculate]
      exact denseIdx_of_eq_range (stop_renumber_indexes _)
    · intro x hx
      rw [activityIndexes_recalculate]
      unfold activityIndexes at hx ⊢
      by_cases hcase : x = stop_id
      · subst hcase
        have hnil : (s.activities.filter (fun a => a.trip_stop_id != x)).filter
            (fun a => a.trip_stop_id == x) = [] := by
          rw [List.filter_filter]
          refine List.filter_eq_nil_iff.mpr (fun a _ => ?_)
          rcases eq_or_ne a.trip_stop_id x with h | h <;> simp [h]
        simp only [hnil, List.map_nil]
        exact denseIdx_nil
      · have heq : (s.activities.filter (fun a => a.trip_stop_id != stop_id)).filter
            (fun a => a.trip_stop_id == x)
            = s.activities.filter (fun a => a.trip_stop_id == x) := by
          rw [List.filter_filter]
          refine List.filter_congr (fun a _ => ?_)
          rcases eq_or_ne a.trip_stop_id x with h | h
          · simp [h, hcase]
          · simp [h]
        rw [heq]
        exact hx

/-- C1 helper: after a reorder the stops are renumbered 0..n-1. -/
theorem reorder_stops_dense (s : TripState) (trip_id user_id : Nat)
    (d : TripStopReorder) (out : TripState × List TripStop)
    (hok : reorder_stops trip_id user_id d s = .ok out) :
    denseIdx (stopIndexes out.1) := by
  unfold reorder_stops at hok
  cases hv : verify_trip_ownership trip_id user_id s with
  | error e => rw [hv, errBind] at hok; exact absurd hok (by simp)
  | ok t =>
    rw [hv, okBind] at hok
    by_cases hc : d.from_index < 0 ∨ ((sortedStops s).length : Int) ≤ d.from_index ∨
        d.to_index < 0 ∨ ((sortedStops s).length : Int) ≤ d.to_index
    · rw [if_pos hc] at hok; exact absurd hok (by simp)
    · rw [if_neg hc] at hok
      cases hm : (sortedStops s).get? d.from_index.toNat with
      | none => rw [hm] at hok; exact absurd hok (by simp)
      | some moved =>
        rw [hm, Except.ok.injEq] at hok
        subst hok
        exact denseIdx_of_eq_range (stop_renumber_indexes _)

/-- C1 helper: activity insertion preserves density of every stop's
activity indices. -/
theorem create_activity_dense (s : TripState) (stop_id user_id : Nat)
    (d : ActivityCreate) (aid : Nat) (out : TripState × Activity)
    (hok : create_activity stop_id user_id d aid s = .ok out) :
    ∀ x, denseIdx (activityIndexes s x) → denseIdx (activityIndexes out.1 x) := by
  unfold create_activity at hok
  cases hv : verify_stop_ownership stop_id user_id s with
  | error e => rw [hv, errBind] at hok; exact absurd hok (by simp)
  | ok st =>
    rw [hv, okBind, Except.ok.injEq] at hok
    intro x hx
    rw [← hok]
    unfold activityIndexes at hx ⊢
    simp only [List.filter_append]
    by_cases hcase : stop_id = x
    · subst hcase
      simp only [List.filter_cons, List.filter_nil]
      rw [if_pos (by simp)]
      simp only [List.map_append, List.map_cons, List.map_nil]
      have hn : next_sort_index
          ((s.activities.filter (fun a => a.trip_stop_id == stop_id)).map
            (fun a => a.sort_index))
          = ((s.activities.filter (fun a => a.trip_stop_id == stop_id)).map
            (fun a => a.sort_index)).length := next_sort_index_eq_length hx
      rw [hn]
      exact denseIdx_append_length hx
    · simp only [List.filter_cons, List.filter_nil]
      rw [if_neg (by simp [hcase])]
      simpa using hx

/-- C1 helper: activity deletion renumbers the touched stop's activities
0..n-1 and leaves every other stop's activity indices unchanged. -/
theorem delete_activity_dense (s : TripState) (activity_id user_id : Nat)
    (s' : TripState) (hok : delete_activity activity_id user_id s = .ok s')
    (hnd : (s.activities.map (fun a => a.id)).Nodup) :
    ∀ x, denseIdx (activityIndexes s x) → denseIdx (activityIndexes s' x) := by
  unfold delete_activity at hok
  cases hv : verify_activity_ownership activity_id user_id s with
  | error e => rw [hv, errBind] at hok; exact absurd hok (by simp)
  | ok act =>
    rw [hv, okBind, Except.ok.injEq] at hok
    subst hok
    have hact : act ∈ s.activities ∧ act.id = activity_id := by
      unfold verify_activity_ownership at hv
      cases hf : s.activities.find? (fun a => a.id == activity_id) with
      | none => rw [hf] at hv; exact absurd hv (by simp)
      | some a0 =>
        simp only [hf] at hv
        cases hf2 : s.stops.find? (fun st => st.id == a0.trip_stop_id) with
        | none => simp only [hf2] at hv; exact absurd hv (by simp)
        | some st0 =>
          simp only [hf2] at hv
          by_cases hu : s.trip.user_id = user_id
          · rw [if_pos hu, Except.ok.injEq] at hv
            subst hv
            exact ⟨List.mem_of_find?_eq_some hf, by simpa using List.find?_some hf⟩
          · rw [if_neg hu] at hv; exact absurd hv (by simp)
    intro x hx
    unfold activityIndexes at hx ⊢
    simp only [List.filter_append]
    by_cases hcase : x = act.trip_stop_id
    · have hothers : ((s.activities.filter (fun a => a.id != activity_id)).filter
          (fun a => a.trip_stop_id != act.trip_stop_id)).filter
          (fun a => a.trip_stop_id == x) = [] := by
        refine List.filter_eq_nil_iff.mpr (fun a ha => ?_)
        have h1 := List.of_mem_filter ha
        subst hcase
        simpa using h1
      have hren : (((((s.activities.filter (fun a => a.id != activity_id)).filter
          (fun a => a.trip_stop_id == act.trip_stop_id)).insertionSort actLe).enum.map
          (fun p => { p.2 with sort_index := p.1 })).filter
          (fun a => a.trip_stop_id == x))
          = ((((s.activities.filter (fun a => a.id != activity_id)).filter
          (fun a => a.trip_stop_id == act.trip_stop_id)).insertionSort actLe).enum.map
          (fun p => { p.2 with sort_index := p.1 })) := by
        refine List.filter_eq_self.mpr (fun b hb => ?_)
        have hpar := act_renumber_keeps_parent _ act.trip_stop_id
          (fun a ha => by
            have ha2 : a ∈ ((s.activities.filter (fun a => a.id != activity_id)).filter
                (fun a => a.trip_stop_id == act.trip_stop_id)) :=
              (List.perm_insertionSort actLe _).mem_iff.mp ha
            simpa using List.of_mem_filter ha2)
          b hb
        simp [hpar, hcase]
      rw [hothers, hren]
      simp only [List.map_nil, List.nil_append]
      exact denseIdx_of_eq_range (act_renumber_indexes _)
    · have hren : (((((s.activities.filter (fun a => a.id != activity_id)).filter
          (fun a => a.trip_stop_id == act.trip_stop_id)).insertionSort actLe).enum.map
          (fun p => { p.2 with sort_index := p.1 })).filter
          (fun a => a.trip_stop_id == x)) = [] := by
        refine List.filter_eq_nil_iff.mpr (fun b hb => ?_)
        have hpar := act_renumber_keeps_parent _ act.trip_stop_id
          (fun a ha => by
            have ha2 : a ∈ ((s.activities.filter (fun a => a.id != activity_id)).filter
                (fun a => a.trip_stop_id == act.trip_stop_id)) :=
              (List.perm_insertionSort actLe _).mem_iff.mp ha
            simpa using List.of_mem_filter ha2)
          b hb
        simp only [hpar, beq_iff_eq]
        exact fun h => hcase h.symm
      have hothers : ((s.activities.filter (fun a => a.id != activity_id)).filter
          (fun a => a.trip_stop_id != act.trip_stop_id)).filter
          (fun a => a.trip_stop_id == x)
          = s.activities.filter (fun a => a.trip_stop_id == x) := by
        rw [List.filter_filter, List.filter_filter]
        refine List.filter_congr (fun a ha => ?_)
        rcases eq_or_ne a.trip_stop_id x with h | h
        · have hid : a.id ≠ activity_id := by
            intro hid
            have ha2 : a = act := List.inj_on_of_nodup_map hnd ha hact.1
              (by rw [hid, hact.2])
            subst ha2
            exact hcase h.symm
          simp [h, hid, hcase]
        · have hb : (a.trip_stop_id == x) = false := by simp [h]
          simp [hb]
      rw [hren, hothers]
      simpa using hx

theorem endDateInv_recalculate (s : TripState) : endDateInv (recalculate_end_date s) := rfl

/-- C2 counterexample: updating the demo trip's start date succeeds, yet the
persisted end date is left untouched, so it no longer equals
start_date + (sum of nights − 1) days even though the sum is positive. -/
theorem C2_counterexample_start_date_update :
    update_trip 1 1 { start_date := some 10 } demoState
      = .ok (okSt (update_trip 1 1 { start_date := some 10 } demoState),
             (okSt (update_trip 1 1 { start_date := some 10 } demoState)).trip) ∧
    ¬ endDateInv (okSt (update_trip 1 1 { start_date := some 10 } demoState)) := by
  decide

/-- C2 (amended): the end-date equation
`end_date = start_date + max(Σ nights − 1, 0)` is re-established after stop
creation, stop deletion, a nights update, and generation ingestion; but a
trip update (including a start-date change) and a version restore leave the
persisted end date untouched, so the equation is not re-established on those
two write paths. -/
theorem C2_end_date_recomputation :
    (∀ (s : TripState) (trip_id user_id : Nat) (d : TripStopCreate) (sid : Nat)
        (out : TripState × TripStop),
        create_stop trip_id user_id d sid s = .ok out → endDateInv out.1) ∧
    (∀ (s : TripState) (stop_id user_id : Nat) (s' : TripState),
        delete_stop stop_id user_id s = .ok s' → endDateInv s') ∧
    (∀ (s : TripState) (stop_id user_id : Nat) (d : TripStopUpdate)
        (out : TripState × TripStop),
        d.nights.isSome → update_stop stop_id user_id d s = .ok out →
        endDateInv out.1) ∧
    (∀ (s : TripState) (trip_id user_id : Nat) (cand : Candidate) (c : Nat)
        (out : TripState × ItineraryResponse),
        generate_itinerary trip_id user_id cand c s = .ok out → endDateInv out.1) ∧
    (∀ (s : TripState) (trip_id user_id : Nat) (d : TripUpdate)
        (out : TripState × Trip),
        update_trip trip_id user_id d s = .ok out →
        out.1.trip.end_date = s.trip.end_date ∧ out.1.stops = s.stops) ∧
    (∀ (s : TripState) (trip_id version_id user_id c : Nat)
        (out : TripState × TripVersion),
        restore_version trip_id version_id user_id c s = .ok out →
        out.1.trip = s.trip) := by
  refine ⟨?_, ?_, ?_, ?_, ?_, ?_⟩
  · intro s trip_id user_id d sid out hok
    unfold create_stop at hok
    cases hv : verify_trip_ownership trip_id user_id s with
    | error e => rw [hv, errBind] at hok; exact absurd hok (by simp)
    | ok t =>
      rw [hv, okBind, Except.ok.injEq] at hok
      rw [← hok]
      exact endDateInv_recalculate _
  · intro s stop_id user_id s' hok
    unfold delete_stop at hok
    cases hv : verify_stop_ownership stop_id user_id s with
    | error e => rw [hv, errBind] at hok; exact absurd hok (by simp)
    | ok st =>
      rw [hv, okBind, Except.ok.injEq] at hok
      rw [← hok]
      exact endDateInv_recalculate _
  · intro s stop_id user_id d out hn hok
    unfold update_stop at hok
    cases hv : verify_stop_ownership stop_id user_id s with
    | error e => rw [hv, errBind] at hok; exact absurd hok (by simp)
    | ok st =>
      rw [hv, okBind, hn] at hok
      simp only [if_true, Except.ok.injEq] at hok
      rw [← hok]
      exact endDateInv_recalculate _
  · intro s trip_id user_id cand c out hok
    unfold generate_itinerary at hok
    cases hv : verify_trip_ownership trip_id user_id s with
    | error e => rw [hv, errBind] at hok; exact absurd hok (by simp)
    | ok t =>
      rw [hv, okBind] at hok
      by_cases he : cand.stops.isEmpty
      · rw [if_pos he] at hok; exact absurd hok (by simp)
      · rw [if_neg he, Except.ok.injEq] at hok
        rw [← hok]
        exact endDateInv_recalculate _
  · intro s trip_id user_id d out hok
    unfold update_trip at hok
    cases hg : db_get_trip trip_id s with
    | none => rw [hg] at hok; exact absurd hok (by simp)
    | some t =>
      have ht : t = s.trip := by
        unfold db_get_trip at hg
        by_cases h : trip_id = s.trip.id
        · rw [if_pos h] at hg; simpa using hg.symm
        · rw [if_neg h] at hg; exact absurd hg (by simp)
      simp only [hg] at hok
      by_cases hu : t.user_id = user_id
      · rw [if_pos hu, Except.ok.injEq] at hok
        rw [← hok, ht]
        exact ⟨rfl, rfl⟩
      · rw [if_neg hu] at hok; exact absurd hok (by simp)
  · intro s trip_id version_id user_id c out hok
    unfold restore_version at hok
    cases hv : verify_trip_ownership trip_id user_id s with
    | error e => rw [hv, errBind] at hok; exact absurd hok (by simp)
    | ok t =>
      rw [hv, okBind] at hok
      cases hf : s.versions.find? (fun v => v.id == version_id) with
      | none => rw [hf] at hok; exact absurd hok (by simp)
      | some v =>
        simp only [hf] at hok
        by_cases ht : v.trip_id = trip_id
        · rw [if_pos ht, Except.ok.injEq] at hok
          rw [← hok]
          rfl
        · rw [if_neg ht] at hok; exact absurd hok (by simp)

/-- Witness for the amended C2 at a concrete state: creating a stop on the
demo trip re-establishes the end-date equation. -/
theorem C2_end_date_witness :
    endDateInv (okSt (create_stop 1 1 demoStopCreate 99 demoState)) :=
  C2_end_date_recomputation.1 demoState 1 1 demoStopCreate 99
    (okSt (create_stop 1 1 demoStopCreate 99 demoState),
     okSnd (create_stop 1 1 demoStopCreate 99 demoState))
    (by decide)

/-- C4 counterexample: create three versions (numbers 1, 2, 3), delete the
version holding the maximum number, create again — the new version receives
number 3, reusing the number of the deleted version. -/
theorem C4_counterexample_version_number_reuse :
    create_version 1 1 "v1" 101 demoState
      = .ok (c4s1, okSnd (create_version 1 1 "v1" 101 demoState)) ∧
    (okSnd (create_version 1 1 "v1" 101 demoState)).version_number = 1 ∧
    (okSnd (create_version 1 1 "v2" 102 c4s1)).version_number = 2 ∧
    (okSnd (create_version 1 1 "v3" 103 c4s2)).version_number = 3 ∧
    delete_version 1 103 1 c4s3 = .ok c4s4 ∧
    c4s4.versions.map (fun v => v.version_number) = [1, 2] ∧
    (okSnd (create_version 1 1 "v4" 104 c4s4)).version_number = 3 := by
  decide

/-- C4 (amended): a created version's number is strictly greater than the
number of every version existing at creation time (it is computed as
max + 1), and the version is appended to the trip's versions; but because
the maximum is taken over the versions that currently exist, deleting the
version holding the maximum number lets the next creation reuse that
number. -/
theorem C4_version_number_monotone :
    ∀ (s : TripState) (trip_id user_id : Nat) (label : String) (vid : Nat)
      (out : TripState × TripVersion),
      create_version trip_id user_id label vid s = .ok out →
      (∀ w ∈ s.versions, w.version_number < out.2.version_number) ∧
      out.1.versions = s.versions ++ [out.2] := by
  intro s trip_id user_id label vid out hok
  unfold create_version at hok
  cases hv : verify_trip_ownership trip_id user_id s with
  | error e => rw [hv, errBind] at hok; exact absurd hok (by simp)
  | ok t =>
    rw [hv, okBind, Except.ok.injEq] at hok
    constructor
    · intro w hw
      rw [← hok]
      cases hm : (s.versions.map (fun v => v.version_number)).maximum with
      | bot =>
        have hmap : s.versions.map (fun v => v.version_number) = [] :=
          List.maximum_eq_none.mp hm
        have hmem : w.version_number ∈ s.versions.map (fun v => v.version_number) :=
          List.mem_map_of_mem _ hw
        rw [hmap] at hmem
        simp at hmem
      | coe m =>
        change w.version_number < m + 1
        have hle : w.version_number ≤ m := by
          have h2 := List.le_maximum_of_mem (List.mem_map_of_mem _ hw) hm
          exact_mod_cast h2
        omega
    · rw [← hok]

/-- Witness for the amended C4 at a concrete state: the third version
creation appends a version whose number exceeds the existing ones. -/
theorem C4_version_number_witness :
    (okSt (create_version 1 1 "v3" 103 c4s2)).versions
      = c4s2.versions ++ [okSnd (create_version 1 1 "v3" 103 c4s2)] :=
  (C4_version_number_monotone c4s2 1 1 "v3" 103
    (okSt (create_version 1 1 "v3" 103 c4s2),
     okSnd (create_version 1 1 "v3" 103 c4s2)) (by decide)).2

/-- C9 counterexample: the movement upsert route takes no authenticated user
and checks only that the trip exists, so with the demo trip owned by user 1,
an upsert issued by any other caller (the route cannot even see who calls
it) succeeds and writes a movement instead of failing with not-found. -/
theorem C9_counterexample_movement_no_ownership :
    demoState.trip.user_id = 1 ∧
    upsert_movement 1 { from_stop_id := 11, to_stop_id := 10, type := "bus" } 77 demoState
      = .ok (okSt (upsert_movement 1 { from_stop_id := 11, to_stop_id := 10, type := "bus" } 77 demoState),
             okSnd (upsert_movement 1 { from_stop_id := 11, to_stop_id := 10, type := "bus" } 77 demoState)) ∧
    (okSt (upsert_movement 1 { from_stop_id := 11, to_stop_id := 10, type := "bus" } 77 demoState)).movements
      ≠ demoState.movements := by
  decide

/-- C9 (amended): the trip, stop, activity, and version routes fail with the
same not-found error when the referenced entity is absent and when its trip
belongs to another user (the error value is identical in both cases, and no
write happens since the guard runs before any mutation); version deletion and
restore also 404 when the version row is absent or belongs to another trip;
but the movement routes perform no ownership check at all — the upsert
succeeds whenever the trip exists and the update/delete whenever the movement
exists, for any caller. -/
theorem C9_ownership_checks :
    (∀ (s : TripState) (trip_id user_id : Nat) (d : TripStopCreate) (sid : Nat),
        s.trip.user_id ≠ user_id ∨ trip_id ≠ s.trip.id →
        create_stop trip_id user_id d sid s = .error .notFound) ∧
    (∀ (s : TripState) (trip_id user_id : Nat) (d : TripStopReorder),
        s.trip.user_id ≠ user_id ∨ trip_id ≠ s.trip.id →
        reorder_stops trip_id user_id d s = .error .notFound) ∧
    (∀ (s : TripState) (trip_id user_id : Nat) (d : TripUpdate),
        s.trip.user_id ≠ user_id ∨ trip_id ≠ s.trip.id →
        update_trip trip_id user_id d s = .error .notFound) ∧
    (∀ (s : TripState) (trip_id user_id : Nat) (label : String) (vid : Nat),
        s.trip.user_id ≠ user_id ∨ trip_id ≠ s.trip.id →
        create_version trip_id user_id label vid s = .error .notFound) ∧
    (∀ (s : TripState) (trip_id version_id user_id : Nat),
        s.trip.user_id ≠ user_id ∨ trip_id ≠ s.trip.id →
        delete_version trip_id version_id user_id s = .error .notFound) ∧
    (∀ (s : TripState) (trip_id version_id user_id : Nat),
        s.versions.find? (fun v => v.id == version_id) = none →
        delete_version trip_id version_id user_id s = .error .notFound) ∧
    (∀ (s : TripState) (trip_id version_id user_id : Nat) (v : TripVersion),
        s.versions.find? (fun v => v.id == version_id) = some v →
        v.trip_id ≠ trip_id →
        delete_version trip_id version_id user_id s = .error .notFound) ∧
    (∀ (s : TripState) (trip_id version_id user_id c : Nat),
        s.trip.user_id ≠ user_id ∨ trip_id ≠ s.trip.id →
        restore_version trip_id version_id user_id c s = .error .notFound) ∧
    (∀ (s : TripState) (trip_id version_id user_id c : Nat),
        s.versions.find? (fun v => v.id == version_id) = none →
        restore_version trip_id version_id user_id c s = .error .notFound) ∧
    (∀ (s : TripState) (trip_id version_id user_id c : Nat) (v : TripVersion),
        s.versions.find? (fun v => v.id == version_id) = some v →
        v.trip_id ≠ trip_id →
        restore_version trip_id version_id user_id c s = .error .notFound) ∧
    (∀ (s : TripState) (stop_id user_id : Nat),
        s.trip.user_id ≠ user_id ∨ s.stops.find? (fun st => st.id == stop_id) = none →
        delete_stop stop_id user_id s = .error .notFound) ∧
    (∀ (s : TripState) (stop_id user_id : Nat) (d : TripStopUpdate),
        s.trip.user_id ≠ user_id ∨ s.stops.find? (fun st => st.id == stop_id) = none →
        update_stop stop_id user_id d s = .error .notFound) ∧
    (∀ (s : TripState) (stop_id user_id : Nat) (d : ActivityCreate) (aid : Nat),
        s.trip.user_id ≠ user_id ∨ s.stops.find? (fun st => st.id == stop_id) = none →
        create_activity stop_id user_id d aid s = .error .notFound) ∧
    (∀ (s : TripState) (activity_id user_id : Nat),
        s.trip.user_id ≠ user_id ∨
          s.activities.find? (fun a => a.id == activity_id) = none →
        delete_activity activity_id user_id s = .error .notFound) ∧
    (∀ (s : TripState) (trip_id : Nat) (d : MovementCreate) (mid : Nat),
        (trip_id ≠ s.trip.id → upsert_movement trip_id d mid s = .error .notFound) ∧
        (trip_id = s.trip.id → ∃ out, upsert_movement trip_id d mid s = .ok out)) ∧
    (∀ (s : TripState) (movement_id : Nat) (d : MovementUpdate),
        (s.movements.find? (fun m => m.id == movement_id) = none →
          update_movement movement_id d s = .error .notFound) ∧
        (∀ m, s.movements.find? (fun m => m.id == movement_id) = some m →
          ∃ out, update_movement movement_id d s = .ok out)) ∧
    (∀ (s : TripState) (movement_id : Nat),
        (s.movements.find? (fun m => m.id == movement_id) = none →
          delete_movement movement_id s = .error .notFound) ∧
        (∀ m, s.movements.find? (fun m => m.id == movement_id) = some m →
          ∃ out, delete_movement movement_id s = .ok out)) := by
  have hverify : ∀ (s : TripState) (trip_id user_id : Nat),
      s.trip.user_id ≠ user_id ∨ trip_id ≠ s.trip.id →
      verify_trip_ownership trip_id user_id s = .error .notFound := by
    intro s trip_id user_id h
    unfold verify_trip_ownership db_get_trip
    by_cases hid : trip_id = s.trip.id
    · rw [if_pos hid]
      rcases h with h | h
      · simp only []
        rw [if_neg (fun hc => h hc)]
      · exact absurd hid h
    · rw [if_neg hid]
  have hverifyCases : ∀ (s : TripState) (trip_id user_id : Nat),
      verify_trip_ownership trip_id user_id s = .error .notFound ∨
      ∃ t, verify_trip_ownership trip_id user_id s = .ok t := by
    intro s trip_id user_id
    unfold verify_trip_ownership db_get_trip
    by_cases hid : trip_id = s.trip.id
    · rw [if_pos hid]
      simp only []
      by_cases hu : s.trip.user_id = user_id
      · exact Or.inr ⟨s.trip, by rw [if_pos hu]⟩
      · exact Or.inl (by rw [if_neg hu])
    · exact Or.inl (by rw [if_neg hid])
  have hverifyStop : ∀ (s : TripState) (stop_id user_id : Nat),
      s.trip.user_id ≠ user_id ∨ s.stops.find? (fun st => st.id == stop_id) = none →
      verify_stop_ownership stop_id user_id s = .error .notFound := by
    intro s stop_id user_id h
    unfold verify_stop_ownership
    cases hf : s.stops.find? (fun st => st.id == stop_id) with
    | none => rfl
    | some st =>
      rcases h with h | h
      · simp only []
        rw [if_neg (fun hc => h hc)]
      · rw [hf] at h; exact absurd h (by simp)
  refine ⟨?_, ?_, ?_, ?_, ?_, ?_, ?_, ?_, ?_, ?_, ?_, ?_, ?_, ?_, ?_, ?_, ?_⟩
  · intro s trip_id user_id d sid h
    unfold create_stop
    rw [hverify s trip_id user_id h, errBind]
  · intro s trip_id user_id d h
    unfold reorder_stops
    rw [hverify s trip_id user_id h, errBind]
  · intro s trip_id user_id d h
    unfold update_trip
    have hv := hverify s trip_id user_id h
    unfold verify_trip_ownership at hv
    cases hg : db_get_trip trip_id s with
    | none => rfl
    | some t =>
      simp only [hg] at hv ⊢
      by_cases hu : t.user_id = user_id
      · rw [if_pos hu] at hv; exact absurd hv (by simp)
      · rw [if_neg hu]
  · intro s trip_id user_id label vid h
    unfold create_version
    rw [hverify s trip_id user_id h, errBind]
  · intro s trip_id version_id user_id h
    unfold delete_version
    rw [hverify s trip_id user_id h, errBind]
  · intro s trip_id version_id user_id hnone
    unfold delete_version
    rcases hverifyCases s trip_id user_id with hv | ⟨t, hv⟩
    · rw [hv, errBind]
    · rw [hv, okBind, hnone]
  · intro s trip_id version_id user_id v hsome hne
    unfold delete_version
    rcases hverifyCases s trip_id user_id with hv | ⟨t, hv⟩
    · rw [hv, errBind]
    · rw [hv, okBind]
      simp only [hsome]
      rw [if_neg hne]
  · intro s trip_id version_id user_id c h
    unfold restore_version
    rw [hverify s trip_id user_id h, errBind]
  · intro s trip_id version_id user_id c hnone
    unfold restore_version
    rcases hverifyCases s trip_id user_id with hv | ⟨t, hv⟩
    · rw [hv, errBind]
    · rw [hv, okBind, hnone]
  · intro s trip_id version_id user_id c v hsome hne
    unfold restore_version
    rcases hverifyCases s trip_id user_id with hv | ⟨t, hv⟩
    · rw [hv, errBind]
    · rw [hv, okBind]
      simp only [hsome]
      rw [if_neg hne]
  · intro s stop_id user_id h
    unfold delete_stop
    rw [hverifyStop s stop_id user_id h, errBind]
  · intro s stop_id user_id d h
    unfold update_stop
    rw [hverifyStop s stop_id user_id h, errBind]
  · intro s stop_id user_id d aid h
    unfold create_activity
    rw [hverifyStop s stop_id user_id h, errBind]
  · intro s activity_id user_id h
    unfold delete_activity
    have hva : verify_activity_ownership activity_id user_id s = .error .notFound := by
      unfold verify_activity_ownership
      cases hf : s.activities.find? (fun a => a.id == activity_id) with
      | none => rfl
      | some a0 =>
        rcases h with h | h
        · simp only []
          cases hf2 : s.stops.find? (fun st => st.id == a0.trip_stop_id) with
          | none => rfl
          | some st0 => rw [if_neg (fun hc => h hc)]
        · rw [hf] at h; exact absurd h (by simp)
    rw [hva, errBind]
  · intro s trip_id d mid
    constructor
    · intro h
      unfold upsert_movement db_get_trip
      rw [if_neg h]
    · intro h
      unfold upsert_movement db_get_trip
      rw [if_pos h]
      cases hf : s.movements.find? (fun m =>
          m.from_stop_id == d.from_stop_id && m.to_stop_id == d.to_stop_id) with
      | some existing => exact ⟨_, rfl⟩
      | none => exact ⟨_, rfl⟩
  · intro s movement_id d
    constructor
    · intro h
      unfold update_movement
      rw [h]
    · intro m h
      unfold update_movement
      rw [h]
      exact ⟨_, rfl⟩
  · intro s movement_id
    constructor
    · intro h
      unfold delete_movement
      rw [h]
    · intro m h
      unfold delete_movement
      rw [h]
      exact ⟨_, rfl⟩

/-- Witness for the amended C9 at a concrete state: user 2 cannot create a
stop on, or delete a version of, the demo trip owned by user 1 (uniform
not-found), restoring an absent version 404s, while the movement upsert and
update on the same trip succeed without any caller identity. -/
theorem C9_ownership_checks_witness :
    create_stop 1 2 demoStopCreate 99 demoState = .error .notFound ∧
    delete_version 1 500 2 demoState = .error .notFound ∧
    restore_version 1 500 1 1000 demoState = .error .notFound ∧
    (∃ out, upsert_movement 1
      { from_stop_id := 11, to_stop_id := 10, type := "bus" } 77 demoState = .ok out) ∧
    (∃ out, update_movement 40 { price := some (some 60) } demoState = .ok out) := by
  refine ⟨?_, ?_, ?_, ?_, ?_⟩
  · exact C9_ownership_checks.1 demoState 1 2 demoStopCreate 99 (by decide)
  · exact C9_ownership_checks.2.2.2.2.1 demoState 1 500 2 (by decide)
  · exact C9_ownership_checks.2.2.2.2.2.2.2.2.1 demoState 1 500 1 1000 (by decide)
  · exact (C9_ownership_checks.2.2.2.2.2.2.2.2.2.2.2.2.2.2.1 demoState 1
      { from_stop_id := 11, to_stop_id := 10, type := "bus" } 77).2 (by decide)
  · exact (C9_ownership_checks.2.2.2.2.2.2.2.2.2.2.2.2.2.2.2.1 demoState 40
      { price := some (some 60) }).2
      { id := 40, from_stop_id := 10, to_stop_id := 11, type := "train",
        duration_minutes := some 95, departure_time := none, arrival_time := none,
        carrier := "Trenitalia", booking_ref := "", notes := "", price := some 45 }
      (by decide)

/-- C10: the movement upsert never stores the price supplied in the request.
When a movement with the same (from, to) stops exists, its type, duration,
departure and arrival times, carrier, booking reference and notes are
overwritten but its price is left unchanged (every movement keeps its (id,
price) pair); when none exists, the created movement's price is unset.  The
movement update route, by contrast, does write a supplied price. -/
theorem C10_upsert_never_writes_price :
    (∀ (s : TripState) (trip_id : Nat) (d : MovementCreate) (mid : Nat)
        (out : TripState × Movement) (m0 : Movement),
        (s.movements.map (fun m => m.id)).Nodup →
        s.movements.find? (fun m =>
          m.from_stop_id == d.from_stop_id && m.to_stop_id == d.to_stop_id) = some m0 →
        upsert_movement trip_id d mid s = .ok out →
        out.2.price = m0.price ∧ out.2.id = m0.id ∧ out.2.type = d.type ∧
        out.2.duration_minutes = d.duration_minutes ∧
        out.2.departure_time = d.departure_time ∧
        out.2.arrival_time = d.arrival_time ∧ out.2.carrier = d.carrier ∧
        out.2.booking_ref = d.booking_ref ∧ out.2.notes = d.notes ∧
        out.1.movements.map (fun m => (m.id, m.price))
          = s.movements.map (fun m => (m.id, m.price))) ∧
    (∀ (s : TripState) (trip_id : Nat) (d : MovementCreate) (mid : Nat)
        (out : TripState × Movement),
        s.movements.find? (fun m =>
          m.from_stop_id == d.from_stop_id && m.to_stop_id == d.to_stop_id) = none →
        upsert_movement trip_id d mid s = .ok out →
        out.2.price = none ∧ out.1.movements = s.movements ++ [out.2]) ∧
    (∀ (s : TripState) (movement_id : Nat) (q : Int) (out : TripState × Movement),
        update_movement movement_id { price := some (some q) } s = .ok out →
        out.2.price = some q) := by
  refine ⟨?_, ?_, ?_⟩
  · intro s trip_id d mid out m0 hnd hf hok
    unfold upsert_movement at hok
    cases hg : db_get_trip trip_id s with
    | none => rw [hg] at hok; exact absurd hok (by simp)
    | some t =>
      simp only [hg, hf] at hok
      rw [Except.ok.injEq] at hok
      rw [← hok]
      refine ⟨rfl, rfl, rfl, rfl, rfl, rfl, rfl, rfl, rfl, ?_⟩
      rw [List.map_map]
      refine List.map_congr_left (fun a ha => ?_)
      by_cases hm : a.id = m0.id
      · have ham : a = m0 := List.inj_on_of_nodup_map hnd ha
          (List.mem_of_find?_eq_some hf) hm
        subst ham
        simp [Function.comp]
      · have hb : (a.id == m0.id) = false := by simp [hm]
        simp [Function.comp, hb]
  · intro s trip_id d mid out hf hok
    unfold upsert_movement at hok
    cases hg : db_get_trip trip_id s with
    | none => rw [hg] at hok; exact absurd hok (by simp)
    | some t =>
      simp only [hg, hf] at hok
      rw [Except.ok.injEq] at hok
      rw [← hok]
      exact ⟨rfl, rfl⟩
  · intro s movement_id q out hok
    unfold update_movement at hok
    cases hf : s.movements.find? (fun m => m.id == movement_id) with
    | none => rw [hf] at hok; exact absurd hok (by simp)
    | some m =>
      simp only [hf] at hok
      rw [Except.ok.injEq] at hok
      rw [← hok]
      rfl

/-- Witness for C10 at a concrete state: upserting a movement on a (from,
to) pair with no existing movement stores no price even though the request
carries one implicitly absent, and appends the movement. -/
theorem C10_upsert_never_writes_price_witness :
    (okSnd (upsert_movement 1 { from_stop_id := 11, to_stop_id := 10, type := "bus", price := some 7 } 78 demoState)).price = none ∧
    (okSt (upsert_movement 1 { from_stop_id := 11, to_stop_id := 10, type := "bus", price := some 7 } 78 demoState)).movements
      = demoState.movements
        ++ [okSnd (upsert_movement 1 { from_stop_id := 11, to_stop_id := 10, type := "bus", price := some 7 } 78 demoState)] :=
  C10_upsert_never_writes_price.2.1 demoState 1
    { from_stop_id := 11, to_stop_id := 10, type := "bus", price := some 7 } 78
    (okSt (upsert_movement 1 { from_stop_id := 11, to_stop_id := 10, type := "bus", price := some 7 } 78 demoState),
     okSnd (upsert_movement 1 { from_stop_id := 11, to_stop_id := 10, type := "bus", price := some 7 } 78 demoState))
    (by decide) (by decide)

/-- C5: a successful reorder is exactly list-splice semantics on the current
order — the element at from_index is removed and reinserted at to_index, the
result is renumbered 0..n-1, and the trip's movements are emptied; an
out-of-range index on an owned trip yields a validation error (raised before
any write). -/
theorem C5_reorder_splice :
    (∀ (s : TripState) (trip_id user_id : Nat) (d : TripStopReorder)
        (out : TripState × List TripStop),
        reorder_stops trip_id user_id d s = .ok out →
        ∃ (fi ti : Nat) (moved : TripStop),
          d.from_index = (fi : Int) ∧ d.to_index = (ti : Int) ∧
          fi < (sortedStops s).length ∧ ti < (sortedStops s).length ∧
          (sortedStops s).get? fi = some moved ∧
          out.1.stops.map stopRowData
            = (((sortedStops s).eraseIdx fi).insertIdx ti moved).map stopRowData ∧
          stopIndexes out.1 = List.range (sortedStops s).length ∧
          out.1.movements = []) ∧
    (∀ (s : TripState) (trip_id user_id : Nat) (d : TripStopReorder),
        verify_trip_ownership trip_id user_id s = .ok s.trip →
        (d.from_index < 0 ∨ ((sortedStops s).length : Int) ≤ d.from_index ∨
         d.to_index < 0 ∨ ((sortedStops s).length : Int) ≤ d.to_index) →
        reorder_stops trip_id user_id d s = .error .invalidIndex) := by
  constructor
  · intro s trip_id user_id d out hok
    unfold reorder_stops at hok
    cases hv : verify_trip_ownership trip_id user_id s with
    | error e => rw [hv, errBind] at hok; exact absurd hok (by simp)
    | ok t =>
      rw [hv, okBind] at hok
      by_cases hc : d.from_index < 0 ∨ ((sortedStops s).length : Int) ≤ d.from_index ∨
          d.to_index < 0 ∨ ((sortedStops s).length : Int) ≤ d.to_index
      · rw [if_pos hc] at hok; exact absurd hok (by simp)
      · rw [if_neg hc] at hok
        push_neg at hc
        obtain ⟨hf0, hf1, ht0, ht1⟩ := hc
        cases hm : (sortedStops s).get? d.from_index.toNat with
        | none => rw [hm] at hok; exact absurd hok (by simp)
        | some moved =>
          rw [hm, Except.ok.injEq] at hok
          refine ⟨d.from_index.toNat, d.to_index.toNat, moved,
            (Int.toNat_of_nonneg hf0).symm, (Int.toNat_of_nonneg ht0).symm,
            by omega, by omega, hm, ?_, ?_, ?_⟩
          · rw [← hok]
            show (((((sortedStops s).eraseIdx d.from_index.toNat).insertIdx
                d.to_index.toNat moved).enum.map
                (fun p => { p.2 with sort_index := p.1 })).map stopRowData) = _
            rw [List.map_map]
            have hcomp : (stopRowData ∘
                (fun p : Nat × TripStop => { p.2 with sort_index := p.1 }))
                = stopRowData ∘ Prod.snd := rfl
            rw [hcomp, ← List.map_map, List.enum_map_snd]
          · rw [← hok]
            unfold stopIndexes
            show ((((sortedStops s).eraseIdx d.from_index.toNat).insertIdx
                d.to_index.toNat moved).enum.map
                (fun p => { p.2 with sort_index := p.1 })).map (fun st => st.sort_index) = _
            rw [stop_renumber_indexes]
            have hlen : (((sortedStops s).eraseIdx d.from_index.toNat).insertIdx
                d.to_index.toNat moved).length = (sortedStops s).length := by
              have he : ((sortedStops s).eraseIdx d.from_index.toNat).length
                  = (sortedStops s).length - 1 :=
                List.length_eraseIdx_of_lt (by omega)
              have hi : (((sortedStops s).eraseIdx d.from_index.toNat).insertIdx
                  d.to_index.toNat moved).length
                  = ((sortedStops s).eraseIdx d.from_index.toNat).length + 1 :=
                List.length_insertIdx _ _ (by rw [he]; omega)
              rw [hi, he]
              omega
            rw [hlen]
          · rw [← hok]
  · intro s trip_id user_id d hv hc
    unfold reorder_stops
    rw [hv, okBind, if_pos hc]
    rfl

/-- Witness for C5 at a concrete state: reorder with from_index 5 on the
two-stop demo trip is rejected with a validation error. -/
theorem C5_reorder_splice_witness :
    reorder_stops 1 1 { from_index := 5, to_index := 0 } demoState
      = .error .invalidIndex :=
  C5_reorder_splice.2 demoState 1 1 { from_index := 5, to_index := 0 }
    (by decide) (by decide)

theorem genStops_fst_length : ∀ (rs : List RawStop) (idx c : Nat) (n : Int),
    (genStops idx c n rs).1.length = rs.length := by
  intro rs
  induction rs with
  | nil => intro idx c n; rfl
  | cons r rest ih =>
    intro idx c n
    show ((genStops (idx + 1) (c + 1) _ rest).1.length + 1) = rest.length + 1
    rw [ih]

set_option maxRecDepth 4000 in
theorem genStops_get : ∀ (rs : List RawStop) (idx c : Nat) (n : Int) (k : Nat)
    (st : TripStop),
    (genStops idx c n rs).1.get? k = some st →
    ∃ r, rs.get? k = some r ∧
      st.id = c + k ∧ st.sort_index = idx + k ∧
      st.lng = max (-180) (min 180 (r.lng.getD 0)) ∧
      st.lat = max (-90) (min 90 (r.lat.getD 0)) ∧
      st.nights = max 1 (r.nights.getD 1) ∧
      st.name = truncate (r.name.getD "Unknown") 200 ∧
      st.notes = truncate (r.notes.getD "") 10000 ∧
      st.price_per_night = r.price_per_night := by
  intro rs
  induction rs with
  | nil => intro idx c n k st h; exact absurd h (by simp [genStops])
  | cons r rest ih =>
    intro idx c n k st h
    cases k with
    | zero =>
      refine ⟨r, rfl, ?_⟩
      have h2 : st = { id := c, sort_index := idx,
                       name := truncate (r.name.getD "Unknown") 200,
                       lng := (_validate_coordinate (r.lng.getD 0) (r.lat.getD 0)).1,
                       lat := (_validate_coordinate (r.lng.getD 0) (r.lat.getD 0)).2,
                       notes := truncate (r.notes.getD "") 10000,
                       nights := max 1 (r.nights.getD 1),
                       price_per_night := r.price_per_night } := by
        have h3 := h
        simp only [genStops, List.get?] at h3
        injection h3 with h4
        exact h4.symm
      refine ⟨?_, ?_, ?_, ?_, ?_, ?_, ?_, ?_⟩ <;> rw [h2] <;>
        simp [_validate_coordinate]
    | succ k2 =>
      have h3 : (genStops (idx + 1) (c + 1) (n + max 1 (r.nights.getD 1)) rest).1.get? k2
          = some st := h
      obtain ⟨r2, hr2, hid, hsort, rest'⟩ := ih (idx + 1) (c + 1) _ k2 st h3
      exact ⟨r2, hr2, by omega, by omega, rest'⟩

theorem genStops_ids : ∀ (rs : List RawStop) (idx c : Nat) (n : Int),
    (genStops idx c n rs).1.map (fun st => st.id) = List.range' c rs.length := by
  intro rs
  induction rs with
  | nil => intro idx c n; rfl
  | cons r rest ih =>
    intro idx c n
    show (c :: (genStops (idx + 1) (c + 1) _ rest).1.map (fun st => st.id))
      = List.range' c (rest.length + 1)
    rw [ih, List.range'_succ]

theorem find?_by_id_of_nodup : ∀ {l : List TripStop} {st : TripStop}, st ∈ l →
    ((l.map (fun x => x.id)).Nodup) → l.find? (fun x => x.id == st.id) = some st := by
  intro l
  induction l with
  | nil => intro st h; simp at h
  | cons hd t ih =>
    intro st hmem hnd
    rw [List.map_cons, List.nodup_cons] at hnd
    rcases List.mem_cons.mp hmem with rfl | hmem2
    · simp [List.find?_cons_of_pos]
    · have hne : hd.id ≠ st.id := fun he => hnd.1 (he ▸ List.mem_map_of_mem _ hmem2)
      rw [List.find?_cons_of_neg _ (by simp [hne])]
      exact ih hmem2 hnd.2

theorem keptMovementPairsSpec_eq_keptAux :
    ∀ (ms : List RawMovement) (n : Nat) (acc seen : List (Int × Int)),
      (∀ p : Int × Int, acc.contains p = seen.contains p) →
      ms.foldl (fun acc rm =>
        match rm.from_stop_index, rm.to_stop_index with
        | some fi, some ti =>
          if 0 ≤ fi ∧ fi < (n : Int) ∧ 0 ≤ ti ∧ ti < (n : Int) ∧ fi ≠ ti ∧
              ¬ acc.contains (fi, ti) then
            acc ++ [(fi, ti)]
          else acc
        | _, _ => acc) acc = acc ++ keptAux n seen ms := by
  intro ms
  induction ms with
  | nil => intro n acc seen hrel; simp [keptAux]
  | cons rm rest ih =>
    intro n acc seen hrel
    rw [List.foldl_cons]
    unfold keptAux
    cases hf : rm.from_stop_index with
    | none => simp only [hf]; exact ih n acc seen hrel
    | some fi =>
      cases ht : rm.to_stop_index with
      | none => simp only [hf, ht]; exact ih n acc seen hrel
      | some ti =>
        simp only [hf, ht]
        by_cases hc : 0 ≤ fi ∧ fi < (n : Int) ∧ 0 ≤ ti ∧ ti < (n : Int) ∧ fi ≠ ti ∧
            ¬ seen.contains (fi, ti)
        · have hc' : 0 ≤ fi ∧ fi < (n : Int) ∧ 0 ≤ ti ∧ ti < (n : Int) ∧ fi ≠ ti ∧
              ¬ acc.contains (fi, ti) := by
            obtain ⟨a, b, c, d, e, f⟩ := hc
            exact ⟨a, b, c, d, e, by rw [hrel]; exact f⟩
          rw [if_pos hc', if_pos hc]
          rw [ih n (acc ++ [(fi, ti)]) ((fi, ti) :: seen) ?hrel2]
          · rw [List.append_assoc]
            rfl
          case hrel2 =>
            intro p
            have h := hrel p
            by_cases hp : p = (fi, ti)
            · subst hp; simp
            · simp [hp]
              simpa using h
        · have hc' : ¬ (0 ≤ fi ∧ fi < (n : Int) ∧ 0 ≤ ti ∧ ti < (n : Int) ∧ fi ≠ ti ∧
              ¬ acc.contains (fi, ti)) := by
            intro hcon
            obtain ⟨a, b, c, d, e, f⟩ := hcon
            exact hc ⟨a, b, c, d, e, by rw [← hrel]; exact f⟩
          rw [if_neg hc', if_neg hc]
          exact ih n acc seen hrel

theorem stopIdToSortIndex_of_mem {created : List TripStop} {st : TripStop}
    (hmem : st ∈ created) (hnd : (created.map (fun x => x.id)).Nodup) :
    stopIdToSortIndex created st.id = some st.sort_index := by
  unfold stopIdToSortIndex
  rw [find?_by_id_of_nodup hmem hnd]
  rfl

theorem genMovements_pairs (created : List TripStop)
    (hnd : (created.map (fun st => st.id)).Nodup)
    (hsort : ∀ (k : Nat) (st : TripStop), created.get? k = some st → st.sort_index = k) :
    ∀ (ms : List RawMovement) (c : Nat) (seen : List (Int × Int)),
      (genMovements created c seen ms).map (fun m =>
          (stopIdToSortIndex created m.from_stop_id,
           stopIdToSortIndex created m.to_stop_id))
        = (keptAux created.length seen ms).map
            (fun p => (some p.1.toNat, some p.2.toNat)) := by
  intro ms
  induction ms with
  | nil => intro c seen; rfl
  | cons rm rest ih =>
    intro c seen
    unfold genMovements keptAux
    cases hf : rm.from_stop_index with
    | none => simp only [hf]; exact ih c seen
    | some fi =>
      cases ht : rm.to_stop_index with
      | none => simp only [hf, ht]; exact ih c seen
      | some ti =>
        simp only [hf, ht]
        by_cases hinv : fi < 0 ∨ ti < 0 ∨ (created.length : Int) ≤ fi ∨
            (created.length : Int) ≤ ti ∨ fi = ti
        · rw [if_pos hinv, if_neg (by
            intro hcon
            obtain ⟨a, b, c', d, e, f⟩ := hcon
            rcases hinv with h | h | h | h | h <;> omega)]
          exact ih c seen
        · rw [if_neg hinv]
          push_neg at hinv
          obtain ⟨h0f, h0t, hlf, hlt, hne⟩ := hinv
          by_cases hseen : seen.contains (fi, ti)
          · rw [if_pos hseen, if_neg (by
              intro hcon
              exact hcon.2.2.2.2.2 hseen)]
            exact ih c seen
          · have hcond : 0 ≤ fi ∧ fi < (created.length : Int) ∧ 0 ≤ ti ∧
                ti < (created.length : Int) ∧ fi ≠ ti ∧
                ¬ seen.contains (fi, ti) := ⟨h0f, hlf, h0t, hlt, hne, hseen⟩
            rw [if_neg hseen, if_pos hcond]
            have hfb : fi.toNat < created.length := by omega
            have htb : ti.toNat < created.length := by omega
            cases hgf : created.get? fi.toNat with
            | none =>
              rw [List.get?_eq_none] at hgf
              omega
            | some fs =>
              cases hgt : created.get? ti.toNat with
              | none =>
                rw [List.get?_eq_none] at hgt
                omega
              | some ts =>
                simp only [hgf, hgt]
                have hfs : fs ∈ created := List.get?_mem hgf
                have hts : ts ∈ created := List.get?_mem hgt
                have h1 : stopIdToSortIndex created fs.id = some fs.sort_index :=
                  stopIdToSortIndex_of_mem hfs hnd
                have h2 : stopIdToSortIndex created ts.id = some ts.sort_index :=
                  stopIdToSortIndex_of_mem hts hnd
                have h3 : fs.sort_index = fi.toNat := hsort _ _ hgf
                have h4 : ts.sort_index = ti.toNat := hsort _ _ hgt
                simp [h1, h2, h3, h4, ih (c + 1) ((fi, ti) :: seen)]

theorem genActivities_dates : ∀ (sa : List RawActivity) (sid : Nat) (sd cum : Int)
    (i c : Nat),
    (genActivities sid sd cum i c sa).1.map (fun a => a.date)
      = sa.map (fun ra => some (sd + cum + max 0 ra.day_offset)) := by
  intro sa
  induction sa with
  | nil => intro sid sd cum i c; rfl
  | cons ra rest ih =>
    intro sid sd cum i c
    show (some (sd + cum + max 0 ra.day_offset)
        :: (genActivities sid sd cum (i + 1) (c + 1) rest).1.map (fun a => a.date)) = _
    rw [ih, List.map_cons]

theorem genActivities_parent : ∀ (sa : List RawActivity) (sid : Nat) (sd cum : Int)
    (i c : Nat), ∀ a ∈ (genActivities sid sd cum i c sa).1, a.trip_stop_id = sid := by
  intro sa
  induction sa with
  | nil => intro sid sd cum i c a ha; exact absurd ha (by simp [genActivities])
  | cons ra rest ih =>
    intro sid sd cum i c a ha
    rcases List.mem_cons.mp ha with rfl | ha2
    · rfl
    · exact ih sid sd cum (i + 1) (c + 1) a ha2

theorem genAllActivities_fst : ∀ (rs : List RawStop) (sts : List TripStop)
    (cums : List Int) (sd : Int) (c : Nat),
    rs.length = sts.length → sts.length = cums.length →
    (genAllActivities sd c rs sts cums).1.map (fun b => b.1) = sts := by
  intro rs
  induction rs with
  | nil =>
    intro sts cums sd c h1 h2
    cases sts with
    | nil => rfl
    | cons x xs => simp at h1
  | cons r rest ih =>
    intro sts cums sd c h1 h2
    cases sts with
    | nil => simp at h1
    | cons st sts2 =>
      cases cums with
      | nil => simp at h2
      | cons cum cums2 =>
        show (st :: (genAllActivities sd _ rest sts2 cums2).1.map (fun b => b.1)) = _
        rw [ih sts2 cums2 sd _ (by simpa using h1) (by simpa using h2)]

theorem genAllActivities_get : ∀ (rs : List RawStop) (sts : List TripStop)
    (cums : List Int) (sd : Int) (c k : Nat) (st : TripStop) (acts : List Activity),
    (genAllActivities sd c rs sts cums).1.get? k = some (st, acts) →
    ∃ (r : RawStop) (cum : Int) (c2 : Nat), rs.get? k = some r ∧ sts.get? k = some st ∧
      cums.get? k = some cum ∧
      acts = (genActivities st.id sd cum 0 c2 r.activities).1 := by
  intro rs
  induction rs with
  | nil => intro sts cums sd c k st acts h; exact absurd h (by simp [genAllActivities])
  | cons r rest ih =>
    intro sts cums sd c k st acts h
    cases sts with
    | nil => exact absurd h (by simp [genAllActivities])
    | cons st0 sts2 =>
      cases cums with
      | nil => exact absurd h (by simp [genAllActivities])
      | cons cum cums2 =>
        cases k with
        | zero =>
          have h2 : (st0, (genActivities st0.id sd cum 0 c r.activities).1)
              = (st, acts) := by
            have h3 := h
            simp only [genAllActivities, List.get?] at h3
            injection h3
          injection h2 with h2a h2b
          subst h2a
          exact ⟨r, cum, c, rfl, rfl, rfl, h2b.symm⟩
        | succ k2 =>
          obtain ⟨r2, cum2, c2, ha, hb, hc', hd⟩ := ih sts2 cums2 sd _ k2 st acts h
          exact ⟨r2, cum2, c2, ha, hb, hc', hd⟩

theorem genAllActivities_labeled : ∀ (rs : List RawStop) (sts : List TripStop)
    (cums : List Int) (sd : Int) (c : Nat),
    ∀ b ∈ (genAllActivities sd c rs sts cums).1, ∀ a ∈ b.2, a.trip_stop_id = b.1.id := by
  intro rs
  induction rs with
  | nil => intro sts cums sd c b hb; exact absurd hb (by simp [genAllActivities])
  | cons r rest ih =>
    intro sts cums sd c b hb
    cases sts with
    | nil => exact absurd hb (by simp [genAllActivities])
    | cons st0 sts2 =>
      cases cums with
      | nil => exact absurd hb (by simp [genAllActivities])
      | cons cum cums2 =>
        rcases List.mem_cons.mp hb with rfl | hb2
        · intro a ha
          exact genActivities_parent r.activities st0.id sd cum 0 c a ha
        · exact ih sts2 cums2 sd _ b hb2

theorem filter_label_blocks {α : Type} (lab : α → Nat) :
    ∀ (blocks : List (Nat × List α)),
      (blocks.map Prod.fst).Nodup →
      (∀ b ∈ blocks, ∀ x ∈ b.2, lab x = b.1) →
      ∀ b ∈ blocks, (blocks.flatMap (fun bb => bb.2)).filter (fun x => lab x == b.1) = b.2 := by
  intro blocks
  induction blocks with
  | nil => intro hnd hlab b hb; exact absurd hb (by simp)
  | cons hd tl ih =>
    intro hnd hlab b hb
    rw [List.map_cons, List.nodup_cons] at hnd
    rw [List.flatMap_cons, List.filter_append]
    rcases List.mem_cons.mp hb with rfl | hb2
    · have h1 : b.2.filter (fun x => lab x == b.1) = b.2 :=
        List.filter_eq_self.mpr (fun x hx => by
          simp [hlab b (List.mem_cons_self _ _) x hx])
      have h2 : (tl.flatMap (fun bb => bb.2)).filter (fun x => lab x == b.1) = [] := by
        refine List.filter_eq_nil_iff.mpr (fun x hx => ?_)
        obtain ⟨b', hb', hxb⟩ := List.mem_flatMap.mp hx
        have hlx : lab x = b'.1 := hlab b' (List.mem_cons_of_mem _ hb') x hxb
        have hne : b'.1 ≠ b.1 := fun he => hnd.1 (he ▸ List.mem_map_of_mem Prod.fst hb')
        simp [hlx, hne]
      rw [h1, h2, List.append_nil]
    · have h1 : hd.2.filter (fun x => lab x == b.1) = [] := by
        refine List.filter_eq_nil_iff.mpr (fun x hx => ?_)
        have hlx : lab x = hd.1 := hlab hd (List.mem_cons_self _ _) x hx
        have hne : hd.1 ≠ b.1 := fun he => hnd.1 (he ▸ List.mem_map_of_mem Prod.fst hb2)
        simp [hlx, hne]
      rw [h1, List.nil_append]
      exact ih hnd.2 (fun b' hb' => hlab b' (List.mem_cons_of_mem _ hb')) b hb2

theorem flatMap_snd_mapped {α β γ : Type} (l : List (β × List γ)) (f : β → α) :
    ((l.map (fun b => (f b.1, b.2))).flatMap (fun bb => bb.2))
      = l.flatMap (fun bb => bb.2) := by
  induction l with
  | nil => rfl
  | cons hd tl ih => simp [ih]

theorem genStops_snd_length : ∀ (rs : List RawStop) (idx c : Nat) (n : Int),
    (genStops idx c n rs).2.length = rs.length := by
  intro rs
  induction rs with
  | nil => intro idx c n; rfl
  | cons r rest ih =>
    intro idx c n
    show ((genStops (idx + 1) (c + 1) _ rest).2.length + 1) = rest.length + 1
    rw [ih]

theorem genStops_cums : ∀ (rs : List RawStop) (idx c : Nat) (n : Int) (k : Nat)
    (cum : Int), (genStops idx c n rs).2.get? k = some cum →
    cum = n + ((rs.take k).map (fun r => max 1 (r.nights.getD 1))).sum := by
  intro rs
  induction rs with
  | nil => intro idx c n k cum h; exact absurd h (by simp [genStops])
  | cons r rest ih =>
    intro idx c n k cum h
    cases k with
    | zero =>
      have h2 : n = cum := by
        have h3 := h
        simp only [genStops, List.get?] at h3
        injection h3
      simp [← h2]
    | succ k2 =>
      have h3 : (genStops (idx + 1) (c + 1) (n + max 1 (r.nights.getD 1)) rest).2.get? k2
          = some cum := h
      have h4 := ih (idx + 1) (c + 1) _ k2 cum h3
      rw [h4]
      rw [List.take_succ_cons, List.map_cons, List.sum_cons]
      omega

theorem verify_trip_ownership_ok {trip_id user_id : Nat} {s : TripState} {t : Trip}
    (h : verify_trip_ownership trip_id user_id s = .ok t) : t = s.trip := by
  unfold verify_trip_ownership db_get_trip at h
  by_cases hid : trip_id = s.trip.id
  · rw [if_pos hid] at h
    by_cases hu : s.trip.user_id = user_id
    · simp only [hu, if_true] at h
      injection h with h2
      exact h2.symm
    · simp only [] at h
      rw [if_neg hu] at h
      exact absurd h (by simp)
  · rw [if_neg hid] at h; exact absurd h (by simp)

theorem generate_ok_elim {s : TripState} {trip_id user_id : Nat} {cand : Candidate}
    {c : Nat} {out : TripState × ItineraryResponse}
    (hok : generate_itinerary trip_id user_id cand c s = .ok out) :
    cand.stops.isEmpty = false ∧ out.1 = applyGeneration cand c s := by
  unfold generate_itinerary at hok
  cases hv : verify_trip_ownership trip_id user_id s with
  | error e => rw [hv, errBind] at hok; exact absurd hok (by simp)
  | ok t =>
    rw [hv, okBind] at hok
    by_cases he : cand.stops.isEmpty
    · rw [if_pos he] at hok; exact absurd hok (by simp)
    · rw [if_neg he, Except.ok.injEq] at hok
      exact ⟨by simp [he], by rw [← hok]⟩

theorem applyGeneration_stops (cand : Candidate) (c : Nat) (s : TripState) :
    (applyGeneration cand c s).stops
      = (genStops 0 c 0 (cand.stops.take MAX_STOPS)).1 := rfl

theorem applyGeneration_movements (cand : Candidate) (c : Nat) (s : TripState) :
    (applyGeneration cand c s).movements
      = genMovements (genStops 0 c 0 (cand.stops.take MAX_STOPS)).1
          (genAllActivities s.trip.start_date
            (c + (genStops 0 c 0 (cand.stops.take MAX_STOPS)).1.length)
            (cand.stops.take MAX_STOPS)
            (genStops 0 c 0 (cand.stops.take MAX_STOPS)).1
            (genStops 0 c 0 (cand.stops.take MAX_STOPS)).2).2
          [] cand.movements := rfl

theorem applyGeneration_activities (cand : Candidate) (c : Nat) (s : TripState) :
    (applyGeneration cand c s).activities
      = ((genAllActivities s.trip.start_date
            (c + (genStops 0 c 0 (cand.stops.take MAX_STOPS)).1.length)
            (cand.stops.take MAX_STOPS)
            (genStops 0 c 0 (cand.stops.take MAX_STOPS)).1
            (genStops 0 c 0 (cand.stops.take MAX_STOPS)).2).1).flatMap
          (fun b => b.2) := rfl


/-- C7: generation ingestion truncates the candidate stop list to the
20-stop cap (a 25-stop candidate keeps exactly the first 20); an empty stop
list is rejected with a validation error before any write; and the created
movements, read back by stop position, are exactly the candidate movements
whose positions are present and in range, whose endpoints differ, and whose
(from, to) pair has not occurred earlier — all others are silently dropped
without failing the request. -/
theorem C7_generation_validation :
    (∀ (s : TripState) (trip_id user_id : Nat) (cand : Candidate) (c : Nat)
        (out : TripState × ItineraryResponse),
        generate_itinerary trip_id user_id cand c s = .ok out →
        out.1.stops.length = min cand.stops.length MAX_STOPS) ∧
    (∀ (s : TripState) (trip_id user_id : Nat) (ms : List RawMovement) (c : Nat),
        verify_trip_ownership trip_id user_id s = .ok s.trip →
        generate_itinerary trip_id user_id { stops := [], movements := ms } c s
          = .error .noStops) ∧
    (∀ (s : TripState) (trip_id user_id : Nat) (cand : Candidate) (c : Nat)
        (out : TripState × ItineraryResponse),
        generate_itinerary trip_id user_id cand c s = .ok out →
        out.1.movements.map (fun m =>
            (stopIdToSortIndex out.1.stops m.from_stop_id,
             stopIdToSortIndex out.1.stops m.to_stop_id))
          = (keptMovementPairsSpec (min cand.stops.length MAX_STOPS) cand.movements).map
              (fun p => (some p.1.toNat, some p.2.toNat))) := by
  refine ⟨?_, ?_, ?_⟩
  · intro s trip_id user_id cand c out hok
    obtain ⟨-, h1⟩ := generate_ok_elim hok
    rw [h1, applyGeneration_stops, genStops_fst_length, List.length_take, Nat.min_comm]
  · intro s trip_id user_id ms c hv
    unfold generate_itinerary
    rw [hv, okBind]
    rfl
  · intro s trip_id user_id cand c out hok
    obtain ⟨-, h1⟩ := generate_ok_elim hok
    have hlen : (genStops 0 c 0 (cand.stops.take MAX_STOPS)).1.length
        = min cand.stops.length MAX_STOPS := by
      rw [genStops_fst_length, List.length_take, Nat.min_comm]
    have hnd : ((genStops 0 c 0 (cand.stops.take MAX_STOPS)).1.map
        (fun st => st.id)).Nodup := by
      rw [genStops_ids]
      exact List.nodup_range' _ _
    have hsort : ∀ (k : Nat) (st : TripStop),
        (genStops 0 c 0 (cand.stops.take MAX_STOPS)).1.get? k = some st →
        st.sort_index = k := by
      intro k st hget
      obtain ⟨r, -, -, hsi, -⟩ := genStops_get _ 0 c 0 k st hget
      omega
    rw [h1, applyGeneration_movements, applyGeneration_stops]
    rw [genMovements_pairs _ hnd hsort cand.movements _ []]
    rw [← hlen]
    have hbridge : keptMovementPairsSpec
        (genStops 0 c 0 (cand.stops.take MAX_STOPS)).1.length cand.movements
        = keptAux (genStops 0 c 0 (cand.stops.take MAX_STOPS)).1.length [] cand.movements := by
      unfold keptMovementPairsSpec
      have h2 := keptMovementPairsSpec_eq_keptAux cand.movements
        (genStops 0 c 0 (cand.stops.take MAX_STOPS)).1.length [] [] (fun p => rfl)
      simpa using h2
    rw [hbridge]

set_option maxRecDepth 10000 in
/-- Witness for C7 at a concrete state: ingesting the 25-stop candidate
succeeds and keeps exactly min(25, 20) = 20 stops. -/
theorem C7_generation_validation_witness :
    (okSt (generate_itinerary 1 1 bigCandidate 500 demoState)).stops.length
      = min bigCandidate.stops.length MAX_STOPS :=
  C7_generation_validation.1 demoState 1 1 bigCandidate 500
    (okSt (generate_itinerary 1 1 bigCandidate 500 demoState),
     okVal (generate_itinerary 1 1 bigCandidate 500 demoState) |>.2)
    (by decide)


/-- C8: for every stop kept by generation ingestion, the stored longitude
and latitude are the candidate's clamped to [-180, 180] and [-90, 90], the
stored nights is the candidate's floored at 1, and each stored activity date
equals trip start date + (cumulative clamped nights of the prior candidate
stops + the activity's day_offset floored at 0) days — computed only from
the candidate structure, never from any date supplied in the candidate. -/
theorem C8_generation_clamps_and_dates :
    ∀ (s : TripState) (trip_id user_id : Nat) (cand : Candidate) (c k : Nat)
      (out : TripState × ItineraryResponse) (st : TripStop),
      generate_itinerary trip_id user_id cand c s = .ok out →
      out.1.stops.get? k = some st →
      ∃ r, cand.stops.get? k = some r ∧
        st.lng = max (-180) (min 180 (r.lng.getD 0)) ∧
        st.lat = max (-90) (min 90 (r.lat.getD 0)) ∧
        st.nights = max 1 (r.nights.getD 1) ∧
        (out.1.activities.filter (fun a => a.trip_stop_id == st.id)).map (fun a => a.date)
          = r.activities.map (fun ra =>
              some (s.trip.start_date +
                ((cand.stops.take k).map (fun x => max 1 (x.nights.getD 1))).sum +
                max 0 ra.day_offset)) := by
  intro s trip_id user_id cand c k out st hok hget
  obtain ⟨-, h1⟩ := generate_ok_elim hok
  rw [h1, applyGeneration_stops] at hget
  obtain ⟨r, hr, hid, hsi, hlng, hlat, hnights, hname, hnotes, hppn⟩ :=
    genStops_get _ 0 c 0 k st hget
  have hkM : k < MAX_STOPS := by
    have h2 : ¬ ((genStops 0 c 0 (cand.stops.take MAX_STOPS)).1.get? k = none) := by
      rw [hget]; simp
    rw [List.get?_eq_none] at h2
    push_neg at h2
    rw [genStops_fst_length, List.length_take] at h2
    omega
  have hrc : cand.stops.get? k = some r := by
    rw [← List.get?_take hkM]
    exact hr
  refine ⟨r, hrc, hlng, hlat, hnights, ?_⟩
  -- activities
  rw [h1, applyGeneration_activities]
  have hfstlen : (genStops 0 c 0 (cand.stops.take MAX_STOPS)).1.length
      = (cand.stops.take MAX_STOPS).length := genStops_fst_length _ _ _ _
  have hsndlen : (genStops 0 c 0 (cand.stops.take MAX_STOPS)).2.length
      = (cand.stops.take MAX_STOPS).length := genStops_snd_length _ _ _ _
  have hfst := genAllActivities_fst (cand.stops.take MAX_STOPS)
    (genStops 0 c 0 (cand.stops.take MAX_STOPS)).1
    (genStops 0 c 0 (cand.stops.take MAX_STOPS)).2
    s.trip.start_date
    (c + (genStops 0 c 0 (cand.stops.take MAX_STOPS)).1.length)
    hfstlen.symm (by rw [hfstlen, hsndlen])
  -- the block at position k
  have hbk0 : ((genAllActivities s.trip.start_date
      (c + (genStops 0 c 0 (cand.stops.take MAX_STOPS)).1.length)
      (cand.stops.take MAX_STOPS)
      (genStops 0 c 0 (cand.stops.take MAX_STOPS)).1
      (genStops 0 c 0 (cand.stops.take MAX_STOPS)).2).1.get? k).map (fun b => b.1)
      = some st := by
    rw [← List.get?_map, hfst, hget]
  cases hbk : (genAllActivities s.trip.start_date
      (c + (genStops 0 c 0 (cand.stops.take MAX_STOPS)).1.length)
      (cand.stops.take MAX_STOPS)
      (genStops 0 c 0 (cand.stops.take MAX_STOPS)).1
      (genStops 0 c 0 (cand.stops.take MAX_STOPS)).2).1.get? k with
  | none => rw [hbk] at hbk0; exact absurd hbk0 (by simp)
  | some b =>
    rw [hbk] at hbk0
    have hb1 : b.1 = st := by
      injection hbk0
    obtain ⟨r2, cum, c2, hr2, hst2, hcum, hacts⟩ :=
      genAllActivities_get _ _ _ _ _ k b.1 b.2 (by rw [← hbk])
    have hr2r : r2 = r := by
      rw [hr] at hr2
      injection hr2 with h
      exact h.symm
    have hcumval : cum = 0 + (((cand.stops.take MAX_STOPS).take k).map
        (fun x => max 1 (x.nights.getD 1))).sum := genStops_cums _ _ _ _ _ _ hcum
    -- filter picks exactly block b
    have hnd' : (((genAllActivities s.trip.start_date
        (c + (genStops 0 c 0 (cand.stops.take MAX_STOPS)).1.length)
        (cand.stops.take MAX_STOPS)
        (genStops 0 c 0 (cand.stops.take MAX_STOPS)).1
        (genStops 0 c 0 (cand.stops.take MAX_STOPS)).2).1.map
          (fun b => (b.1.id, b.2))).map Prod.fst).Nodup := by
      rw [List.map_map]
      have hc : (Prod.fst ∘ fun b : TripStop × List Activity => (b.1.id, b.2))
          = (fun b : TripStop × List Activity => b.1.id) := rfl
      rw [hc]
      have hc2 : (fun b : TripStop × List Activity => b.1.id)
          = ((fun st : TripStop => st.id) ∘ (fun b : TripStop × List Activity => b.1)) := rfl
      rw [hc2, ← List.map_map, hfst, genStops_ids]
      exact List.nodup_range' _ _
    have hlab' : ∀ bb ∈ ((genAllActivities s.trip.start_date
        (c + (genStops 0 c 0 (cand.stops.take MAX_STOPS)).1.length)
        (cand.stops.take MAX_STOPS)
        (genStops 0 c 0 (cand.stops.take MAX_STOPS)).1
        (genStops 0 c 0 (cand.stops.take MAX_STOPS)).2).1.map
          (fun b => (b.1.id, b.2))),
        ∀ a ∈ bb.2, a.trip_stop_id = bb.1 := by
      intro bb hbb a ha
      obtain ⟨b0, hb0, hb0e⟩ := List.mem_map.mp hbb
      rw [← hb0e] at ha ⊢
      exact genAllActivities_labeled _ _ _ _ _ b0 hb0 a ha
    have hmem' : ((st.id, b.2) : Nat × List Activity)
        ∈ ((genAllActivities s.trip.start_date
        (c + (genStops 0 c 0 (cand.stops.take MAX_STOPS)).1.length)
        (cand.stops.take MAX_STOPS)
        (genStops 0 c 0 (cand.stops.take MAX_STOPS)).1
        (genStops 0 c 0 (cand.stops.take MAX_STOPS)).2).1.map
          (fun b => (b.1.id, b.2))) := by
      have hbmem := List.get?_mem hbk
      have h5 : ((st.id, b.2) : Nat × List Activity) = (b.1.id, b.2) := by rw [hb1]
      rw [h5]
      exact List.mem_map_of_mem (fun bb : TripStop × List Activity => (bb.1.id, bb.2)) hbmem
    have hfilter := filter_label_blocks (fun a : Activity => a.trip_stop_id)
      _ hnd' hlab' _ hmem'
    have hflat := flatMap_snd_mapped
      (genAllActivities s.trip.start_date
        (c + (genStops 0 c 0 (cand.stops.take MAX_STOPS)).1.length)
        (cand.stops.take MAX_STOPS)
        (genStops 0 c 0 (cand.stops.take MAX_STOPS)).1
        (genStops 0 c 0 (cand.stops.take MAX_STOPS)).2).1
      (fun st : TripStop => st.id)
    rw [← hflat, hfilter]
    rw [hacts]
    rw [genActivities_dates]
    rw [hr2r]
    refine List.map_congr_left (fun ra _ => ?_)
    have harith : s.trip.start_date + cum + max 0 ra.day_offset
        = s.trip.start_date +
          ((cand.stops.take k).map (fun x => max 1 (x.nights.getD 1))).sum +
          max 0 ra.day_offset := by
      rw [hcumval]
      rw [List.take_take, Nat.min_eq_left (le_of_lt hkM)]
      omega
    rw [harith]


set_option maxRecDepth 10000 in
/-- Witness for C8 at a concrete state: the second demo candidate stop has
longitude 200, latitude -95 and nights 0; the stored stop is clamped to 180,
-90 and 1 night, and its activity date is start + 2 (the prior stop's
nights). -/
theorem C8_generation_clamps_and_dates_witness :
    ∃ r, demoCandidate.stops.get? 1 = some r ∧
      demoGenStop1.lng = max (-180) (min 180 (r.lng.getD 0)) ∧
      demoGenStop1.lat = max (-90) (min 90 (r.lat.getD 0)) ∧
      demoGenStop1.nights = max 1 (r.nights.getD 1) ∧
      ((okSt demoGen).activities.filter
          (fun a => a.trip_stop_id == demoGenStop1.id)).map (fun a => a.date)
        = r.activities.map (fun ra =>
            some (demoState.trip.start_date +
              ((demoCandidate.stops.take 1).map
                (fun x => max 1 (x.nights.getD 1))).sum +
              max 0 ra.day_offset)) :=
  C8_generation_clamps_and_dates demoState 1 1 demoCandidate 500 1
    (okSt demoGen, (okVal demoGen).2) demoGenStop1 (by decide) (by decide)

-- Structure lemmas -----------------------------------------------------------

theorem restore_photos_struct (aid : Nat) : ∀ (c : Nat) (ps : List PhotoSnap),
    (restore_photos aid c ps).1.map snapPhoto = ps := by
  intro c ps
  induction ps generalizing c with
  | nil => rfl
  | cons p rest ih =>
    show snapPhoto _ :: (restore_photos aid (c + 1) rest).1.map snapPhoto = p :: rest
    rw [ih]
    rfl

theorem restore_photos_parent (aid : Nat) : ∀ (c : Nat) (ps : List PhotoSnap),
    ∀ p ∈ (restore_photos aid c ps).1, p.activity_id = aid := by
  intro c ps
  induction ps generalizing c with
  | nil => intro p hp; exact absurd hp (by simp [restore_photos])
  | cons q rest ih =>
    intro p hp
    rcases List.mem_cons.mp hp with rfl | h2
    · rfl
    · exact ih (c + 1) p h2

theorem restore_photos_idspec (aid : Nat) : ∀ (c : Nat) (ps : List PhotoSnap),
    (restore_photos aid c ps).1.map (fun p => p.id) = List.range' c ps.length ∧
    (restore_photos aid c ps).2 = c + ps.length := by
  intro c ps
  induction ps generalizing c with
  | nil => exact ⟨rfl, rfl⟩
  | cons p rest ih =>
    refine ⟨?_, ?_⟩
    · show c :: (restore_photos aid (c + 1) rest).1.map (fun p => p.id)
          = List.range' c (rest.length + 1)
      rw [(ih (c + 1)).1, List.range'_succ]
    · show (restore_photos aid (c + 1) rest).2 = c + (rest.length + 1)
      rw [(ih (c + 1)).2]; omega

theorem restore_activities_struct (sid : Nat) : ∀ (c : Nat) (sa : List ActivitySnap),
    (restore_activities sid c sa).1.map pairToActSnap = sa := by
  intro c sa
  induction sa generalizing c with
  | nil => rfl
  | cons a rest ih =>
    show pairToActSnap _ :: _ = a :: rest
    have h1 : pairToActSnap
        ({ id := c, trip_stop_id := sid, sort_index := a.sort_index,
           title := a.title, date := a.date, start_time := a.start_time,
           duration_minutes := a.duration_minutes, lng := a.lng, lat := a.lat,
           address := a.address, notes := a.notes, category := a.category,
           opening_hours := a.opening_hours, price := a.price, tips := a.tips,
           website_url := a.website_url, phone := a.phone, rating := a.rating,
           guide_info := a.guide_info, transport_info := a.transport_info,
           opentripmap_xid := a.opentripmap_xid },
         (restore_photos c (c + 1) a.photos).1) = a := by
      show ({ sort_index := a.sort_index, title := a.title, date := a.date,
              start_time := a.start_time, duration_minutes := a.duration_minutes,
              lng := a.lng, lat := a.lat, address := a.address, notes := a.notes,
              category := a.category, opening_hours := a.opening_hours,
              price := a.price, tips := a.tips, website_url := a.website_url,
              phone := a.phone, rating := a.rating, guide_info := a.guide_info,
              transport_info := a.transport_info,
              opentripmap_xid := a.opentripmap_xid,
              photos := (restore_photos c (c + 1) a.photos).1.map snapPhoto } : ActivitySnap) = a
      rw [restore_photos_struct]
    rw [h1, ih]

theorem restore_activities_parent (sid : Nat) : ∀ (c : Nat) (sa : List ActivitySnap),
    ∀ pr ∈ (restore_activities sid c sa).1,
      pr.1.trip_stop_id = sid ∧ ∀ p ∈ pr.2, p.activity_id = pr.1.id := by
  intro c sa
  induction sa generalizing c with
  | nil => intro pr hpr; exact absurd hpr (by simp [restore_activities])
  | cons a rest ih =>
    intro pr hpr
    rcases List.mem_cons.mp hpr with rfl | h2
    · exact ⟨rfl, fun p hp => restore_photos_parent c (c + 1) a.photos p hp⟩
    · exact ih _ pr h2

theorem restore_activities_idspec (sid : Nat) : ∀ (c : Nat) (sa : List ActivitySnap),
    ∃ t, (restore_activities sid c sa).1.flatMap pairIds = List.range' c t ∧
      (restore_activities sid c sa).2 = c + t := by
  intro c sa
  induction sa generalizing c with
  | nil => exact ⟨0, rfl, rfl⟩
  | cons a rest ih =>
    have hrp := restore_photos_idspec c (c + 1) a.photos
    rcases ih (restore_photos c (c + 1) a.photos).2 with ⟨t', h1, h2⟩
    refine ⟨a.photos.length + 1 + t', ?_, ?_⟩
    · show (c :: (restore_photos c (c + 1) a.photos).1.map (fun p => p.id))
          ++ (restore_activities sid (restore_photos c (c + 1) a.photos).2 rest).1.flatMap pairIds
          = List.range' c (a.photos.length + 1 + t')
      rw [hrp.2] at h1
      rw [hrp.1, hrp.2, h1, ← List.range'_succ]
      have e1 : c + 1 + a.photos.length = c + (a.photos.length + 1) := by omega
      rw [e1, List.range'_append_1]
      have e2 : t' + (a.photos.length + 1) = a.photos.length + 1 + t' := by omega
      rw [e2]
    · show (restore_activities sid (restore_photos c (c + 1) a.photos).2 rest).2
          = c + (a.photos.length + 1 + t')
      rw [h2, hrp.2]; omega

theorem restore_stops_struct : ∀ (c : Nat) (sds : List StopSnap),
    (restore_stops c sds).1.map blockToStopSnap = sds := by
  intro c sds
  induction sds generalizing c with
  | nil => rfl
  | cons sd rest ih =>
    show blockToStopSnap _ :: _ = sd :: rest
    have h1 : blockToStopSnap
        ({ id := c, sort_index := sd.sort_index, name := sd.name, lng := sd.lng,
           lat := sd.lat, notes := sd.notes, nights := sd.nights,
           price_per_night := sd.price_per_night },
         (restore_activities c (c + 1) sd.activities).1) = sd := by
      show ({ sort_index := sd.sort_index, name := sd.name, lng := sd.lng,
              lat := sd.lat, notes := sd.notes, nights := sd.nights,
              price_per_night := sd.price_per_night,
              activities := (restore_activities c (c + 1) sd.activities).1.map pairToActSnap }
            : StopSnap) = sd
      rw [restore_activities_struct]
    rw [h1, ih]

theorem restore_stops_parent : ∀ (c : Nat) (sds : List StopSnap),
    ∀ b ∈ (restore_stops c sds).1, ∀ pr ∈ b.2,
      pr.1.trip_stop_id = b.1.id ∧ ∀ p ∈ pr.2, p.activity_id = pr.1.id := by
  intro c sds
  induction sds generalizing c with
  | nil => intro b hb; exact absurd hb (by simp [restore_stops])
  | cons sd rest ih =>
    intro b hb pr hpr
    rcases List.mem_cons.mp hb with rfl | h2
    · exact restore_activities_parent c (c + 1) sd.activities pr hpr
    · exact ih _ b h2 pr hpr

theorem restore_stops_idspec : ∀ (c : Nat) (sds : List StopSnap),
    ∃ t, (restore_stops c sds).1.flatMap blockIds = List.range' c t ∧
      (restore_stops c sds).2.2 = c + t := by
  intro c sds
  induction sds generalizing c with
  | nil => exact ⟨0, rfl, rfl⟩
  | cons sd rest ih =>
    rcases restore_activities_idspec c (c + 1) sd.activities with ⟨ta, ha1, ha2⟩
    rcases ih (restore_activities c (c + 1) sd.activities).2 with ⟨t', h1, h2⟩
    refine ⟨ta + 1 + t', ?_, ?_⟩
    · show (c :: (restore_activities c (c + 1) sd.activities).1.flatMap pairIds)
          ++ (restore_stops (restore_activities c (c + 1) sd.activities).2 rest).1.flatMap blockIds
          = List.range' c (ta + 1 + t')
      rw [ha2] at h1
      rw [ha1, ha2, h1, ← List.range'_succ]
      have e1 : c + 1 + ta = c + (ta + 1) := by omega
      rw [e1, List.range'_append_1]
      have e2 : t' + (ta + 1) = ta + 1 + t' := by omega
      rw [e2]
    · show (restore_stops (restore_activities c (c + 1) sd.activities).2 rest).2.2
          = c + (ta + 1 + t')
      rw [h2, ha2]; omega

theorem restore_stops_mp_mem : ∀ (c : Nat) (sds : List StopSnap),
    ∀ pr ∈ (restore_stops c sds).2.1, ∃ b ∈ (restore_stops c sds).1,
      pr = (b.1.sort_index, b.1.id) := by
  intro c sds
  induction sds generalizing c with
  | nil => intro pr hpr; exact absurd hpr (by simp [restore_stops])
  | cons sd rest ih =>
    intro pr hpr
    have hpr2 : pr ∈ (restore_stops (restore_activities c (c + 1) sd.activities).2 rest).2.1
        ++ [(sd.sort_index, c)] := hpr
    rcases List.mem_append.mp hpr2 with h2 | h1
    · rcases ih _ pr h2 with ⟨b, hb, he⟩
      exact ⟨b, List.mem_cons_of_mem _ hb, he⟩
    · refine ⟨_, List.mem_cons_self _ _, ?_⟩
      simp at h1
      rw [h1]

theorem restore_stops_mp_key : ∀ (c : Nat) (sds : List StopSnap),
    ∀ sd ∈ sds, ∃ pr ∈ (restore_stops c sds).2.1, pr.1 = sd.sort_index := by
  intro c sds
  induction sds generalizing c with
  | nil => intro sd hsd; exact absurd hsd (by simp)
  | cons s0 rest ih =>
    intro sd hsd
    rcases List.mem_cons.mp hsd with rfl | h2
    · refine ⟨(sd.sort_index, c), ?_, rfl⟩
      show _ ∈ (restore_stops (restore_activities c (c + 1) sd.activities).2 rest).2.1
        ++ [(sd.sort_index, c)]
      exact List.mem_append_right _ (List.mem_cons_self _ _)
    · rcases ih (restore_activities c (c + 1) s0.activities).2 sd h2 with ⟨pr, hpr, he⟩
      refine ⟨pr, ?_, he⟩
      show pr ∈ (restore_stops (restore_activities c (c + 1) s0.activities).2 rest).2.1
        ++ [(s0.sort_index, c)]
      exact List.mem_append_left _ hpr

-- Sublist machinery ----------------------------------------------------------

theorem map_sublist_flatMap {α β : Type} (g : α → β) (f : α → List β) :
    ∀ l : List α, (∀ a ∈ l, g a ∈ f a) → List.Sublist (l.map g) (l.flatMap f) := by
  intro l
  induction l with
  | nil => intro h; exact List.Sublist.refl _
  | cons a tl ih =>
    intro h
    rw [List.map_cons, List.flatMap_cons]
    have h1 : List.Sublist [g a] (f a) :=
      List.singleton_sublist.mpr (h a (List.mem_cons_self _ _))
    exact h1.append (ih (fun b hb => h b (List.mem_cons_of_mem _ hb)))

theorem flatMap_sublist_flatMap {α β : Type} (f g : α → List β) :
    ∀ l : List α, (∀ a ∈ l, List.Sublist (f a) (g a)) →
      List.Sublist (l.flatMap f) (l.flatMap g) := by
  intro l
  induction l with
  | nil => intro h; exact List.Sublist.refl _
  | cons a tl ih =>
    intro h
    rw [List.flatMap_cons, List.flatMap_cons]
    exact (h a (List.mem_cons_self _ _)).append
      (ih (fun b hb => h b (List.mem_cons_of_mem _ hb)))

/-- The restored stops' own ids form a sublist of the full allocated id list. -/
theorem blocks_stop_ids_sublist (blocks : List (TripStop × List (Activity × List ActivityPhoto))) :
    List.Sublist (blocks.map (fun b => b.1.id)) (blocks.flatMap blockIds) :=
  map_sublist_flatMap _ _ blocks (fun b _ => List.mem_cons_self _ _)

/-- The restored activities' ids form a sublist of the full allocated id list. -/
theorem blocks_act_ids_sublist (blocks : List (TripStop × List (Activity × List ActivityPhoto))) :
    List.Sublist (blocks.flatMap (fun b => b.2.map (fun pr => pr.1.id)))
      (blocks.flatMap blockIds) :=
  flatMap_sublist_flatMap _ _ blocks (fun b _ =>
    (map_sublist_flatMap (fun pr => pr.1.id) pairIds b.2
      (fun pr _ => List.mem_cons_self _ _)).cons b.1.id)

/-- The restored photos' ids form a sublist of the full allocated id list. -/
theorem blocks_photo_ids_sublist (blocks : List (TripStop × List (Activity × List ActivityPhoto))) :
    List.Sublist (blocks.flatMap (fun b => b.2.flatMap (fun pr => pr.2.map (fun p => p.id))))
      (blocks.flatMap blockIds) :=
  flatMap_sublist_flatMap _ _ blocks (fun b _ =>
    (flatMap_sublist_flatMap _ _ b.2 (fun pr _ =>
      (List.Sublist.refl (pr.2.map (fun p => p.id))).cons pr.1.id)).cons b.1.id)

-- flatMap reshaping ----------------------------------------------------------

theorem flatMap_snd_pairs {α β γ : Type} (f : α → β) (g : α → List γ) :
    ∀ l : List α, ((l.map (fun b => (f b, g b))).flatMap (fun bb => bb.2)) = l.flatMap g := by
  intro l
  induction l with
  | nil => rfl
  | cons a tl ih => simp only [List.map_cons, List.flatMap_cons, ih]

theorem map_fst_pairs {α β γ : Type} (f : α → β) (g : α → List γ) :
    ∀ l : List α, ((l.map (fun b => (f b, g b))).map (fun bb => bb.1)) = l.map f := by
  intro l
  induction l with
  | nil => rfl
  | cons a tl ih => simp only [List.map_cons, ih]

-- restoredState projections --------------------------------------------------

theorem restoredState_trip (snap : Snapshot) (c : Nat) (s : TripState) :
    (restoredState snap c s).trip = s.trip := rfl

theorem restoredState_stops (snap : Snapshot) (c : Nat) (s : TripState) :
    (restoredState snap c s).stops
      = (restore_stops c snap.stops).1.map (fun b => b.1) := rfl

theorem restoredState_activities (snap : Snapshot) (c : Nat) (s : TripState) :
    (restoredState snap c s).activities
      = (restore_stops c snap.stops).1.flatMap (fun b => b.2.map (fun pr => pr.1)) := rfl

theorem restoredState_photos (snap : Snapshot) (c : Nat) (s : TripState) :
    (restoredState snap c s).photos
      = (restore_stops c snap.stops).1.flatMap (fun b => b.2.flatMap (fun pr => pr.2)) := rfl

theorem restoredState_movements (snap : Snapshot) (c : Nat) (s : TripState) :
    (restoredState snap c s).movements
      = (restore_movements (restore_stops c snap.stops).2.1
          (restore_stops c snap.stops).2.2 snap.movements).1 := rfl

-- Movement re-resolution -----------------------------------------------------

theorem restore_movements_ids_ge (mp : List (Nat × Nat)) :
    ∀ (c : Nat) (mds : List MovementSnap),
      ∀ m ∈ (restore_movements mp c mds).1, c ≤ m.id := by
  intro c mds
  induction mds generalizing c with
  | nil => intro m hm; exact absurd hm (by simp [restore_movements])
  | cons md rest ih =>
    intro m hm
    unfold restore_movements at hm
    cases hf : mp.find? (fun p => p.1 == md.from_sort_index) with
    | none => rw [hf] at hm; exact ih c m hm
    | some f =>
      rw [hf] at hm
      cases ht : mp.find? (fun p => p.1 == md.to_sort_index) with
      | none => rw [ht] at hm; exact ih c m hm
      | some t =>
        rw [ht] at hm
        rcases List.mem_cons.mp hm with rfl | h2
        · exact Nat.le_refl _
        · exact Nat.le_of_lt (Nat.lt_of_lt_of_le (Nat.lt_succ_self c) (by
            have := ih (c + 1) m h2
            omega))

theorem restore_movements_roundtrip (stops' : List TripStop) (mp : List (Nat × Nat))
    (hval : ∀ pr ∈ mp, ∃ st ∈ stops', st.id = pr.2 ∧ st.sort_index = pr.1)
    (hnd : (stops'.map (fun st => st.id)).Nodup) :
    ∀ (c : Nat) (mds : List MovementSnap),
      (∀ md ∈ mds, (mp.find? (fun p => p.1 == md.from_sort_index)).isSome ∧
                   (mp.find? (fun p => p.1 == md.to_sort_index)).isSome) →
      (restore_movements mp c mds).1.filterMap (fun m =>
        match stopIdToSortIndex stops' m.from_stop_id, stopIdToSortIndex stops' m.to_stop_id with
        | some fi, some ti =>
          some { from_sort_index := fi, to_sort_index := ti, type := m.type,
                 duration_minutes := m.duration_minutes,
                 departure_time := m.departure_time, arrival_time := m.arrival_time,
                 carrier := m.carrier, booking_ref := m.booking_ref,
                 notes := m.notes, price := m.price }
        | _, _ => none) = mds := by
  intro c mds
  induction mds generalizing c with
  | nil => intro h; rfl
  | cons md rest ih =>
    intro h
    have hmd := h md (List.mem_cons_self _ _)
    cases hf : mp.find? (fun p => p.1 == md.from_sort_index) with
    | none => rw [hf] at hmd; exact absurd hmd.1 (by simp)
    | some f =>
      cases ht : mp.find? (fun p => p.1 == md.to_sort_index) with
      | none => rw [ht] at hmd; exact absurd hmd.2 (by simp)
      | some t =>
        have hres : restore_movements mp c (md :: rest)
            = (({ id := c, from_stop_id := f.2, to_stop_id := t.2, type := md.type,
                  duration_minutes := md.duration_minutes,
                  departure_time := md.departure_time, arrival_time := md.arrival_time,
                  carrier := md.carrier, booking_ref := md.booking_ref,
                  notes := md.notes, price := md.price } : Movement)
                :: (restore_movements mp (c + 1) rest).1,
               (restore_movements mp (c + 1) rest).2) := by
          simp only [restore_movements, hf, ht]
        rw [hres]
        -- resolve the from endpoint
        rcases hval f (List.mem_of_find?_eq_some hf) with ⟨stf, hstf, hidf, hsif⟩
        rcases hval t (List.mem_of_find?_eq_some ht) with ⟨stt, hstt, hidt, hsit⟩
        have hf1 : f.1 = md.from_sort_index := by
          have := List.find?_some hf
          simpa using this
        have ht1 : t.1 = md.to_sort_index := by
          have := List.find?_some ht
          simpa using this
        have hfi : stopIdToSortIndex stops' f.2 = some md.from_sort_index := by
          unfold stopIdToSortIndex
          rw [← hidf, find?_by_id_of_nodup hstf hnd, Option.map_some', hsif, hf1]
        have hti : stopIdToSortIndex stops' t.2 = some md.to_sort_index := by
          unfold stopIdToSortIndex
          rw [← hidt, find?_by_id_of_nodup hstt hnd, Option.map_some', hsit, ht1]
        rw [List.filterMap_cons]
        simp only [hfi, hti]
        rw [ih (c + 1) (fun md2 hmd2 => h md2 (List.mem_cons_of_mem _ hmd2))]

-- Main roundtrip -------------------------------------------------------------

theorem restoredState_snapshot (snap : Snapshot) (s0 : TripState) (c : Nat)
    (h1 : snap.stops.Pairwise (fun a b => a.sort_index ≤ b.sort_index))
    (h2 : ∀ sd ∈ snap.stops, sd.activities.Pairwise (fun a b => a.sort_index ≤ b.sort_index))
    (h3 : ∀ md ∈ snap.movements,
        (∃ sd ∈ snap.stops, sd.sort_index = md.from_sort_index) ∧
        (∃ sd ∈ snap.stops, sd.sort_index = md.to_sort_index)) :
    _build_snapshot (restoredState snap c s0) = snap := by
  have hstruct := restore_stops_struct c snap.stops
  rcases restore_stops_idspec c snap.stops with ⟨t, hids, hc2⟩
  have hndall : ((restore_stops c snap.stops).1.flatMap blockIds).Nodup := by
    rw [hids]; exact List.nodup_range' _ _
  have hndstop : (((restore_stops c snap.stops).1.map (fun b => b.1.id))).Nodup :=
    hndall.sublist (blocks_stop_ids_sublist _)
  have hndact : (((restore_stops c snap.stops).1.flatMap
      (fun b => b.2.map (fun pr => pr.1.id)))).Nodup :=
    hndall.sublist (blocks_act_ids_sublist _)
  have hpair : ((restore_stops c snap.stops).1.map (fun b => b.1)).Pairwise stopLe := by
    have h1' : ((restore_stops c snap.stops).1.map blockToStopSnap).Pairwise
        (fun a b => a.sort_index ≤ b.sort_index) := by rw [hstruct]; exact h1
    rw [List.pairwise_map] at h1'
    rw [List.pairwise_map]
    exact h1'.imp (fun h => h)
  have hsorted : sortedStops (restoredState snap c s0)
      = (restore_stops c snap.stops).1.map (fun b => b.1) :=
    List.Sorted.insertionSort_eq hpair
  -- pointwise equality of serialized stops
  have hstop : ∀ b ∈ (restore_stops c snap.stops).1,
      snapStop (restoredState snap c s0) b.1 = blockToStopSnap b := by
    intro b hb
    have hfilter : (restoredState snap c s0).activities.filter
        (fun a => a.trip_stop_id == b.1.id) = b.2.map (fun pr => pr.1) := by
      have heq1 : (((restore_stops c snap.stops).1.map
            (fun bb => (bb.1.id, bb.2.map (fun pr => pr.1)))).flatMap (fun bb => bb.2))
          = (restore_stops c snap.stops).1.flatMap (fun bb => bb.2.map (fun pr => pr.1)) :=
        flatMap_snd_pairs _ _ _
      have hnodupA : (((restore_stops c snap.stops).1.map
            (fun bb => (bb.1.id, bb.2.map (fun pr => pr.1)))).map (fun bb => bb.1)).Nodup := by
        rw [map_fst_pairs]; exact hndstop
      have hlabA : ∀ bb ∈ ((restore_stops c snap.stops).1.map
            (fun bb => (bb.1.id, bb.2.map (fun pr => pr.1)))),
          ∀ x ∈ bb.2, x.trip_stop_id = bb.1 := by
        intro bb hbb x hx
        rcases List.mem_map.mp hbb with ⟨b0, hb0, rfl⟩
        rcases List.mem_map.mp hx with ⟨pr, hpr, rfl⟩
        exact (restore_stops_parent c snap.stops b0 hb0 pr hpr).1
      have hmemA : (b.1.id, b.2.map (fun pr => pr.1))
          ∈ ((restore_stops c snap.stops).1.map
            (fun bb => (bb.1.id, bb.2.map (fun pr => pr.1)))) :=
        List.mem_map_of_mem _ hb
      have h4 := filter_label_blocks (fun a => a.trip_stop_id) _ hnodupA hlabA _ hmemA
      rw [heq1] at h4
      exact h4
    have hsd : blockToStopSnap b ∈ snap.stops := by
      rw [← hstruct]; exact List.mem_map_of_mem _ hb
    have hpA : (b.2.map (fun pr => pr.1)).Pairwise actLe := by
      have h5 : (b.2.map pairToActSnap).Pairwise
          (fun a b => a.sort_index ≤ b.sort_index) := h2 _ hsd
      rw [List.pairwise_map] at h5
      rw [List.pairwise_map]
      exact h5.imp (fun h => h)
    have hsortA : sortedActivitiesOf (restoredState snap c s0) b.1.id
        = b.2.map (fun pr => pr.1) := by
      show ((restoredState snap c s0).activities.filter
        (fun a => a.trip_stop_id == b.1.id)).insertionSort actLe = _
      rw [hfilter]
      exact List.Sorted.insertionSort_eq hpA
    have hact : ∀ pr ∈ b.2,
        snapActivity (restoredState snap c s0) pr.1 = pairToActSnap pr := by
      intro pr hpr
      have hfilterP : (restoredState snap c s0).photos.filter
          (fun p => p.activity_id == pr.1.id) = pr.2 := by
        have heqP : ((((restore_stops c snap.stops).1.flatMap (fun bb => bb.2)).map
              (fun pp => (pp.1.id, pp.2))).flatMap (fun bb => bb.2))
            = ((restore_stops c snap.stops).1.flatMap (fun bb => bb.2)).flatMap
                (fun pp => pp.2) :=
          flatMap_snd_pairs _ _ _
        have heqP2 : (((restore_stops c snap.stops).1.flatMap (fun bb => bb.2)).flatMap
              (fun pp => pp.2))
            = (restore_stops c snap.stops).1.flatMap
                (fun bb => bb.2.flatMap (fun pp => pp.2)) :=
          List.flatMap_assoc _ _ _
        have hnodupP : ((((restore_stops c snap.stops).1.flatMap (fun bb => bb.2)).map
              (fun pp => (pp.1.id, pp.2))).map (fun bb => bb.1)).Nodup := by
          rw [map_fst_pairs]
          have : (((restore_stops c snap.stops).1.flatMap (fun bb => bb.2)).map
              (fun pp => pp.1.id))
            = (restore_stops c snap.stops).1.flatMap
                (fun bb => bb.2.map (fun pp => pp.1.id)) := List.map_flatMap _ _ _
          rw [this]
          exact hndact
        have hlabP : ∀ bb ∈ (((restore_stops c snap.stops).1.flatMap (fun bb => bb.2)).map
              (fun pp => (pp.1.id, pp.2))), ∀ x ∈ bb.2, x.activity_id = bb.1 := by
          intro bb hbb x hx
          rcases List.mem_map.mp hbb with ⟨pp, hpp, rfl⟩
          rcases List.mem_flatMap.mp hpp with ⟨b0, hb0, hpp2⟩
          exact (restore_stops_parent c snap.stops b0 hb0 pp hpp2).2 x hx
        have hmemP : (pr.1.id, pr.2)
            ∈ (((restore_stops c snap.stops).1.flatMap (fun bb => bb.2)).map
              (fun pp => (pp.1.id, pp.2))) :=
          List.mem_map_of_mem _ (List.mem_flatMap.mpr ⟨b, hb, hpr⟩)
        have h6 := filter_label_blocks (fun p => p.activity_id) _ hnodupP hlabP _ hmemP
        rw [heqP, heqP2] at h6
        exact h6
      have hph : photosOf (restoredState snap c s0) pr.1.id = pr.2 := hfilterP
      calc snapActivity (restoredState snap c s0) pr.1
          = { pairToActSnap pr with
              photos := (photosOf (restoredState snap c s0) pr.1.id).map snapPhoto } := rfl
        _ = pairToActSnap pr := by rw [hph]; rfl
    calc snapStop (restoredState snap c s0) b.1
        = { blockToStopSnap b with
            activities := (sortedActivitiesOf (restoredState snap c s0) b.1.id).map
              (snapActivity (restoredState snap c s0)) } := rfl
      _ = blockToStopSnap b := by
          rw [hsortA]
          have h7 : (b.2.map (fun pr => pr.1)).map (snapActivity (restoredState snap c s0))
              = b.2.map pairToActSnap := by
            rw [List.map_map]
            exact List.map_congr_left (fun pr hpr => hact pr hpr)
          rw [h7]
          rfl
  -- stops component
  have hstops : (_build_snapshot (restoredState snap c s0)).stops = snap.stops := by
    show ((sortedStops (restoredState snap c s0)).map
      (snapStop (restoredState snap c s0))) = snap.stops
    rw [hsorted]
    have h8 : (((restore_stops c snap.stops).1.map (fun b => b.1)).map
        (snapStop (restoredState snap c s0)))
        = (restore_stops c snap.stops).1.map blockToStopSnap := by
      rw [List.map_map]
      exact List.map_congr_left (fun b hb => hstop b hb)
    rw [h8, hstruct]
  -- movements component
  have hval : ∀ pr ∈ (restore_stops c snap.stops).2.1,
      ∃ st ∈ (restore_stops c snap.stops).1.map (fun b => b.1),
        st.id = pr.2 ∧ st.sort_index = pr.1 := by
    intro pr hpr
    rcases restore_stops_mp_mem c snap.stops pr hpr with ⟨b, hb, he⟩
    exact ⟨b.1, List.mem_map_of_mem _ hb, by rw [he], by rw [he]⟩
  have hnd' : (((restore_stops c snap.stops).1.map (fun b => b.1)).map
      (fun st => st.id)).Nodup := by
    rw [List.map_map]
    exact hndstop
  have hresolve : ∀ md ∈ snap.movements,
      ((((restore_stops c snap.stops).2.1).find?
        (fun p => p.1 == md.from_sort_index)).isSome = true) ∧
      ((((restore_stops c snap.stops).2.1).find?
        (fun p => p.1 == md.to_sort_index)).isSome = true) := by
    intro md hmd
    rcases h3 md hmd with ⟨⟨sdf, hsdf, hef⟩, ⟨sdt, hsdt, het⟩⟩
    rcases restore_stops_mp_key c snap.stops sdf hsdf with ⟨prf, hprf, hkf⟩
    rcases restore_stops_mp_key c snap.stops sdt hsdt with ⟨prt, hprt, hkt⟩
    constructor
    · exact List.find?_isSome.mpr ⟨prf, hprf, by simp [hkf, hef]⟩
    · exact List.find?_isSome.mpr ⟨prt, hprt, by simp [hkt, het]⟩
  have hmovs : (_build_snapshot (restoredState snap c s0)).movements = snap.movements := by
    show ((restoredState snap c s0).movements.filterMap (fun m =>
      match stopIdToSortIndex (sortedStops (restoredState snap c s0)) m.from_stop_id,
            stopIdToSortIndex (sortedStops (restoredState snap c s0)) m.to_stop_id with
      | some fi, some ti =>
        some { from_sort_index := fi, to_sort_index := ti, type := m.type,
               duration_minutes := m.duration_minutes,
               departure_time := m.departure_time, arrival_time := m.arrival_time,
               carrier := m.carrier, booking_ref := m.booking_ref,
               notes := m.notes, price := m.price }
      | _, _ => none)) = snap.movements
    rw [hsorted]
    exact restore_movements_roundtrip _ _ hval hnd' _ _ hresolve
  calc _build_snapshot (restoredState snap c s0)
      = ⟨(_build_snapshot (restoredState snap c s0)).stops,
         (_build_snapshot (restoredState snap c s0)).movements⟩ := rfl
    _ = ⟨snap.stops, snap.movements⟩ := by rw [hstops, hmovs]
    _ = snap := rfl

-- Freshness ------------------------------------------------------------------

theorem restoredState_fresh (snap : Snapshot) (c : Nat) (s0 : TripState) :
    ∀ i ∈ allEntityIds (restoredState snap c s0), c ≤ i := by
  intro i hi
  rcases restore_stops_idspec c snap.stops with ⟨t, hids, hc2⟩
  have hrange : ∀ j ∈ (restore_stops c snap.stops).1.flatMap blockIds, c ≤ j := by
    intro j hj; rw [hids] at hj; exact (List.mem_range'_1.mp hj).1
  unfold allEntityIds at hi
  rcases List.mem_append.mp hi with hi3 | hmov
  · rcases List.mem_append.mp hi3 with hi2 | hph
    · rcases List.mem_append.mp hi2 with hst | hact
      · have hst2 : i ∈ ((restore_stops c snap.stops).1.map (fun b => b.1)).map
            (fun st => st.id) := hst
        rw [List.map_map] at hst2
        exact hrange i ((blocks_stop_ids_sublist _).subset hst2)
      · have hact2 : i ∈ ((restore_stops c snap.stops).1.flatMap
            (fun b => b.2.map (fun pr => pr.1))).map (fun a => a.id) := hact
        rw [List.map_flatMap] at hact2
        have hact3 : i ∈ (restore_stops c snap.stops).1.flatMap
            (fun b => b.2.map (fun pr => pr.1.id)) := by
          rcases List.mem_flatMap.mp hact2 with ⟨b0, hb0, hin⟩
          rw [List.map_map] at hin
          exact List.mem_flatMap.mpr ⟨b0, hb0, hin⟩
        exact hrange i ((blocks_act_ids_sublist _).subset hact3)
    · have hph2 : i ∈ ((restore_stops c snap.stops).1.flatMap
          (fun b => b.2.flatMap (fun pr => pr.2))).map (fun p => p.id) := hph
      rw [List.map_flatMap] at hph2
      have hph3 : i ∈ (restore_stops c snap.stops).1.flatMap
          (fun b => b.2.flatMap (fun pr => pr.2.map (fun p => p.id))) := by
        rcases List.mem_flatMap.mp hph2 with ⟨b0, hb0, hin⟩
        rw [List.map_flatMap] at hin
        exact List.mem_flatMap.mpr ⟨b0, hb0, hin⟩
      exact hrange i ((blocks_photo_ids_sublist _).subset hph3)
  · have hmov2 : i ∈ ((restore_movements (restore_stops c snap.stops).2.1
        (restore_stops c snap.stops).2.2 snap.movements).1).map (fun m => m.id) := hmov
    rcases List.mem_map.mp hmov2 with ⟨m, hm, rfl⟩
    have := restore_movements_ids_ge (restore_stops c snap.stops).2.1
      (restore_stops c snap.stops).2.2 snap.movements m hm
    omega

-- Well-formedness of built snapshots -----------------------------------------

theorem build_stops_sorted (s : TripState) :
    (_build_snapshot s).stops.Pairwise (fun a b => a.sort_index ≤ b.sort_index) := by
  show ((sortedStops s).map (snapStop s)).Pairwise _
  rw [List.pairwise_map]
  exact (List.sorted_insertionSort stopLe s.stops).imp (fun h => h)

theorem build_acts_sorted (s : TripState) :
    ∀ sd ∈ (_build_snapshot s).stops,
      sd.activities.Pairwise (fun a b => a.sort_index ≤ b.sort_index) := by
  intro sd hsd
  have hsd2 : sd ∈ (sortedStops s).map (snapStop s) := hsd
  rcases List.mem_map.mp hsd2 with ⟨st, hst, rfl⟩
  show ((sortedActivitiesOf s st.id).map (snapActivity s)).Pairwise _
  rw [List.pairwise_map]
  exact (List.sorted_insertionSort actLe _).imp (fun h => h)

theorem build_movs_resolve (s : TripState) :
    ∀ md ∈ (_build_snapshot s).movements,
      (∃ sd ∈ (_build_snapshot s).stops, sd.sort_index = md.from_sort_index) ∧
      (∃ sd ∈ (_build_snapshot s).stops, sd.sort_index = md.to_sort_index) := by
  intro md hmd
  have hmd2 : md ∈ s.movements.filterMap (fun m =>
      match stopIdToSortIndex (sortedStops s) m.from_stop_id,
            stopIdToSortIndex (sortedStops s) m.to_stop_id with
      | some fi, some ti =>
        some { from_sort_index := fi, to_sort_index := ti, type := m.type,
               duration_minutes := m.duration_minutes,
               departure_time := m.departure_time, arrival_time := m.arrival_time,
               carrier := m.carrier, booking_ref := m.booking_ref,
               notes := m.notes, price := m.price }
      | _, _ => none) := hmd
  rcases List.mem_filterMap.mp hmd2 with ⟨m, hm, hres⟩
  cases hfi : stopIdToSortIndex (sortedStops s) m.from_stop_id with
  | none => rw [hfi] at hres; exact absurd hres (by simp)
  | some fi =>
    cases hti : stopIdToSortIndex (sortedStops s) m.to_stop_id with
    | none => rw [hfi, hti] at hres; exact absurd hres (by simp)
    | some ti =>
      rw [hfi, hti] at hres
      have hres2 : some
          ({ from_sort_index := fi, to_sort_index := ti, type := m.type,
             duration_minutes := m.duration_minutes,
             departure_time := m.departure_time, arrival_time := m.arrival_time,
             carrier := m.carrier, booking_ref := m.booking_ref,
             notes := m.notes, price := m.price } : MovementSnap) = some md := hres
      have hmdeq :
          ({ from_sort_index := fi, to_sort_index := ti, type := m.type,
             duration_minutes := m.duration_minutes,
             departure_time := m.departure_time, arrival_time := m.arrival_time,
             carrier := m.carrier, booking_ref := m.booking_ref,
             notes := m.notes, price := m.price } : MovementSnap) = md := by
        injection hres2
      rcases Option.map_eq_some'.mp hfi with ⟨stf, hfindf, hif⟩
      rcases Option.map_eq_some'.mp hti with ⟨stt, hfindt, hit⟩
      constructor
      · refine ⟨snapStop s stf, ?_, ?_⟩
        · exact List.mem_map_of_mem _ (List.mem_of_find?_eq_some hfindf)
        · rw [← hmdeq]
          exact hif
      · refine ⟨snapStop s stt, ?_, ?_⟩
        · exact List.mem_map_of_mem _ (List.mem_of_find?_eq_some hfindt)
        · rw [← hmdeq]
          exact hit

-- Claim C3 -------------------------------------------------------------------

theorem create_version_ok (trip_id user_id : Nat) (label : String) (vid : Nat)
    (s : TripState) (out : TripState × TripVersion)
    (h : create_version trip_id user_id label vid s = .ok out) :
    out.1 = { s with versions := s.versions ++ [out.2] } ∧
    out.2.id = vid ∧ out.2.trip_id = trip_id ∧
    out.2.snapshot_data = _build_snapshot s := by
  unfold create_version at h
  cases hv : verify_trip_ownership trip_id user_id s with
  | error e => rw [hv, errBind] at h; exact absurd h (by simp)
  | ok tr =>
    rw [hv, okBind, Except.ok.injEq] at h
    rw [← h]
    exact ⟨rfl, rfl, rfl, rfl⟩

/-- C3: restoring a version immediately after creating it from the current
state reproduces the itinerary exactly as the identity-free snapshot
serialization sees it — same stops in the same order with all their payload,
same per-stop activities in order, same per-activity photos in order, and the
same movement adjacencies re-resolved by stop position — while every stop,
activity, photo, and movement id of the restored state is fresh, distinct
from every id present before. -/
theorem C3_snapshot_restore_roundtrip
    (s : TripState) (trip_id user_id vid c : Nat) (label : String)
    (out1 out2 : TripState × TripVersion)
    (hcreate : create_version trip_id user_id label vid s = .ok out1)
    (hrestore : restore_version trip_id vid user_id c out1.1 = .ok out2)
    (hvid : ∀ w ∈ s.versions, w.id ≠ vid)
    (hc : ∀ i ∈ allEntityIds s, i < c) :
    _build_snapshot out2.1 = _build_snapshot s ∧
    ∀ i ∈ allEntityIds out2.1, i ∉ allEntityIds s := by
  rcases create_version_ok trip_id user_id label vid s out1 hcreate
    with ⟨hst1, hid, htid, hsnap⟩
  unfold restore_version at hrestore
  cases hv2 : verify_trip_ownership trip_id user_id out1.1 with
  | error e => rw [hv2, errBind] at hrestore; exact absurd hrestore (by simp)
  | ok tr =>
    rw [hv2, okBind] at hrestore
    have hfind : out1.1.versions.find? (fun w => w.id == vid) = some out1.2 := by
      have hver : out1.1.versions = s.versions ++ [out1.2] := by rw [hst1]
      rw [hver, List.find?_append]
      have hnone : s.versions.find? (fun w => w.id == vid) = none :=
        List.find?_eq_none.mpr (fun w hw => by simp [hvid w hw])
      rw [hnone]
      have hpos : ([out1.2].find? (fun w => w.id == vid)) = some out1.2 :=
        List.find?_cons_of_pos _ (by simp [hid])
      rw [hpos]
      rfl
    simp only [hfind] at hrestore
    rw [if_pos htid, Except.ok.injEq] at hrestore
    have hout2 : out2.1 = restoredState (_build_snapshot s) c out1.1 := by
      rw [← hrestore, ← hsnap]
    constructor
    · rw [hout2]
      exact restoredState_snapshot (_build_snapshot s) out1.1 c
        (build_stops_sorted s) (build_acts_sorted s) (build_movs_resolve s)
    · intro i hi hagainst
      have hge : c ≤ i := by
        rw [hout2] at hi
        exact restoredState_fresh (_build_snapshot s) c out1.1 i hi
      have hlt : i < c := hc i hagainst
      omega

set_option maxRecDepth 10000 in
/-- Witness for C3 at the demo state: create version 900, restore it with
fresh ids drawn from 1000; the rebuilt snapshot matches and all ids are new. -/
theorem C3_snapshot_restore_roundtrip_witness :
    create_version 1 1 "v1" 900 demoState
        = .ok (okVal (create_version 1 1 "v1" 900 demoState)) ∧
    _build_snapshot (okVal (restore_version 1 900 1 1000
        (okVal (create_version 1 1 "v1" 900 demoState)).1)).1
      = _build_snapshot demoState ∧
    ∀ i ∈ allEntityIds (okVal (restore_version 1 900 1 1000
        (okVal (create_version 1 1 "v1" 900 demoState)).1)).1,
      i ∉ allEntityIds demoState := by
  have h := C3_snapshot_restore_roundtrip demoState 1 1 900 1000 "v1"
    (okVal (create_version 1 1 "v1" 900 demoState))
    (okVal (restore_version 1 900 1 1000
      (okVal (create_version 1 1 "v1" 900 demoState)).1))
    (by decide) (by decide) (by decide) (by decide)
  exact ⟨by decide, h.1, h.2⟩
